import Mathlib

/-!
# Shallow embedding of the `macaroon` Rust crate core

This file embeds the data model and operations of the macaroon-rs library
(`src/lib.rs`, `src/caveat.rs`, `src/crypto/*`, `src/verifier.rs`,
`src/serialization/*`) as executable Lean definitions, and proves properties
of those definitions.

Modelling conventions:
* Octet strings (`ByteString`, `Vec<u8>`, the payload of Rust `String`) are
  `List Nat` of byte values.
* The external cryptographic primitives (HMAC-SHA256 from the `hmac`/`sha2`
  crates, the ChaCha20-Poly1305 AEAD from `chacha20poly1305`, the `base64`
  crate engines, and `serde_json`) are not code of this repository; they
  enter the model as function parameters, and theorems assume only the
  contracts those libraries provide (e.g. that decoding inverts encoding).
* Rust code that can panic is modelled with the `RustOutcome` type, which
  distinguishes `Ok`, `Err`, and a panic.
-/

set_option linter.unusedVariables false

namespace Macaroons

/-- Decidable equality of `Except` results (used to evaluate the model on
concrete inputs). -/
instance {ε α : Type} [DecidableEq ε] [DecidableEq α] :
    DecidableEq (Except ε α) := fun a b =>
  match a, b with
  | .ok x, .ok y =>
    if h : x = y then isTrue (by rw [h]) else isFalse (by simp [h])
  | .error x, .error y =>
    if h : x = y then isTrue (by rw [h]) else isFalse (by simp [h])
  | .ok _, .error _ => isFalse (by simp)
  | .error _, .ok _ => isFalse (by simp)

/-- Octet strings: the `ByteString` newtype of `lib.rs` (and the byte payload
of Rust `String` values) is modelled as a list of byte values. -/
abbrev ByteString := List Nat

/-- ASCII bytes of a string literal (used for the fixed tags and error texts
appearing in the source). -/
def str2b (s : String) : ByteString := s.toList.map Char.toNat

/-- The error enum of `src/error.rs`.  Payloads that are Rust `String` or
`&'static str` are modelled as byte strings. -/
inductive MacaroonError where
  | InitializationError
  | CryptoError (reason : ByteString)
  | IncompleteMacaroon (field : ByteString)
  | IncompleteCaveat (field : ByteString)
  | DeserializationError (detail : ByteString)
  | CaveatNotSatisfied (detail : ByteString)
  | DischargeNotUsed
  | InvalidSignature
deriving DecidableEq, Repr

/-- Outcome of Rust code that may return `Ok`, return `Err`, or panic
(`panic!`, `.expect(...)`, index errors).  Used for the crypto layer, where
`DefaultEncryptor::decrypt` and `From<Vec<u8>> for MacaroonKey` can panic. -/
inductive RustOutcome (α : Type) where
  | ok (v : α)
  | err (e : MacaroonError)
  | panicked (msg : ByteString)
deriving DecidableEq, Repr

/-- `NONCE_BYTES` from `src/crypto/key.rs`. -/
def NONCE_BYTES : Nat := 12

/-- `KEY_BYTES` from `src/crypto/key.rs`. -/
def KEY_BYTES : Nat := 32

/-- The all-zero 32-byte key `MacaroonKey::from([0; 32])` used by `bind` and
by the verifier's bound-signature check. -/
def zeroKey : ByteString := List.replicate 32 0

/-- `hmac2` from `src/crypto/key.rs`: HMAC the concatenation of the two
sub-HMACs.  The underlying `hmac` (HMAC-SHA256 of the `hmac` crate) is a
parameter of the model. -/
def hmac2 (hmac : ByteString → ByteString → ByteString)
    (key text1 text2 : ByteString) : ByteString :=
  hmac key (hmac key text1 ++ hmac key text2)

/-- `impl From<Vec<u8>> for MacaroonKey` from `src/crypto/key.rs`: panics when
fewer than `KEY_BYTES` bytes are supplied, otherwise copies the first
`KEY_BYTES` bytes and silently drops the rest. -/
def macaroonKeyFromVec (bytes : ByteString) : RustOutcome ByteString :=
  if bytes.length < KEY_BYTES then
    .panicked (str2b "invalid key size")
  else
    .ok (bytes.take KEY_BYTES)

/-- `DefaultEncryptor::decrypt` from `src/crypto/mod.rs`.  The ChaCha20-
Poly1305 cipher itself is external; `aead` maps (key, nonce, sealed bytes) to
the plaintext, or `none` when the authentication tag does not verify.  The
source calls `.expect(...)` on that result, so a tag failure is a panic, and
the final `decrypted.into()` goes through `macaroonKeyFromVec`. -/
def DefaultEncryptor.decrypt
    (aead : ByteString → ByteString → ByteString → Option ByteString)
    (withKey cipherBytes : ByteString) : RustOutcome ByteString :=
  if cipherBytes.length ≤ NONCE_BYTES + KEY_BYTES then
    .err (.CryptoError (str2b "Encrypted data too short"))
  else
    match aead withKey (cipherBytes.take NONCE_BYTES)
        (cipherBytes.drop NONCE_BYTES) with
    | none => .panicked (str2b "decrypt_macaroon_key: could not decrypt")
    | some decrypted => macaroonKeyFromVec decrypted

/-- `decrypt_key` from `src/crypto/key.rs` simply forwards to
`DefaultEncryptor::decrypt`. -/
def decrypt_key (aead : ByteString → ByteString → ByteString → Option ByteString)
    (key data : ByteString) : RustOutcome ByteString :=
  DefaultEncryptor.decrypt aead key data

/-- The caveat enum (the tagged-variant `Caveat` used by `lib.rs`,
`verifier.rs` and the serializers; its two shapes and field types are pinned
by those call sites and by the trait-object `src/caveat.rs`). -/
inductive Caveat where
  | FirstParty (predicate : ByteString)
  | ThirdParty (id : ByteString) (verifier_id : ByteString) (location : ByteString)
deriving DecidableEq, Repr

/-- The per-variant signing rule (`Caveat::sign` in `src/caveat.rs`):
first-party `hmac(key, predicate)`, third-party
`hmac2(key, verifier_id, id)`. -/
def Caveat.sign (hmac : ByteString → ByteString → ByteString) :
    Caveat → ByteString → ByteString
  | .FirstParty predicate, key => hmac key predicate
  | .ThirdParty id verifier_id _, key => hmac2 hmac key verifier_id id

/-- The `Macaroon` struct from `src/lib.rs`. -/
structure Macaroon where
  identifier : ByteString
  location : Option ByteString
  signature : ByteString
  caveats : List Caveat
deriving DecidableEq, Repr

section CoreOps

variable (hmac : ByteString → ByteString → ByteString)

/-- `Macaroon::validate` from `src/lib.rs`: requires a non-empty identifier
and a non-empty signature. -/
def Macaroon.validate (m : Macaroon) : Except MacaroonError Macaroon :=
  if m.identifier.isEmpty then
    .error (.IncompleteMacaroon (str2b "no identifier found"))
  else if m.signature.isEmpty then
    .error (.IncompleteMacaroon (str2b "no signature found"))
  else
    .ok m

/-- `Macaroon::create` from `src/lib.rs`: seed the signature with
`hmac(key, identifier)` and validate. -/
def Macaroon.create (location : Option ByteString) (key : ByteString)
    (identifier : ByteString) : Except MacaroonError Macaroon :=
  Macaroon.validate
    { identifier := identifier
      location := location
      signature := hmac key identifier
      caveats := [] }

/-- `Macaroon::add_first_party_caveat` from `src/lib.rs`: the signature is
re-keyed by the caveat's signing rule and the caveat is pushed at the end. -/
def Macaroon.add_first_party_caveat (m : Macaroon) (predicate : ByteString) :
    Macaroon :=
  let caveat := Caveat.FirstParty predicate
  { m with
    signature := caveat.sign hmac m.signature
    caveats := m.caveats ++ [caveat] }

/-- `Macaroon::add_third_party_caveat` from `src/lib.rs`.  The verifier-id is
the authenticated encryption of the caveat root key under the current
signature; the external `encrypt_key` (including its random nonce draw) is
the parameter `enc`. -/
def Macaroon.add_third_party_caveat (enc : ByteString → ByteString → ByteString)
    (m : Macaroon) (location : ByteString) (key : ByteString) (id : ByteString) :
    Macaroon :=
  let vid := enc m.signature key
  let caveat := Caveat.ThirdParty id vid location
  { m with
    signature := caveat.sign hmac m.signature
    caveats := m.caveats ++ [caveat] }

/-- `Macaroon::bind` from `src/lib.rs`: replace the discharge's signature with
`hmac2(0^32, primary.signature, discharge.signature)`.  (`bind` takes the
primary by shared reference, so the primary is unchanged; in this functional
model the function returns the updated discharge.) -/
def Macaroon.bind (primary discharge : Macaroon) : Macaroon :=
  { discharge with
    signature := hmac2 hmac zeroKey primary.signature discharge.signature }

/-- One attenuation step, for stating properties about arbitrary sequences of
`add_first_party_caveat` / `add_third_party_caveat` calls. -/
inductive Attenuation where
  | first (predicate : ByteString)
  | third (location : ByteString) (key : ByteString) (id : ByteString)

/-- Apply one attenuation to a macaroon. -/
def Macaroon.attenuate (enc : ByteString → ByteString → ByteString)
    (m : Macaroon) : Attenuation → Macaroon
  | .first predicate => m.add_first_party_caveat hmac predicate
  | .third location key id => m.add_third_party_caveat hmac enc location key id

/-- The fold of the per-caveat signing rules over a caveat list, starting
from `init` (the signature chain of spec invariant I2). -/
def signatureFold (init : ByteString) (caveats : List Caveat) : ByteString :=
  caveats.foldl (fun sig c => c.sign hmac sig) init

end CoreOps

/-! ## Verifier (`src/verifier.rs`) -/

/-- The verifier configuration: a set of exact predicates and a list of
general predicate callbacks.  The `BTreeSet` is modelled as a list, since the
verifier only tests membership. -/
structure Verifier where
  exact : List ByteString
  general : List (ByteString → Bool)

/-- `Verifier::verify_general`: whether any general callback accepts. -/
def Verifier.verify_general (V : Verifier) (value : ByteString) : Bool :=
  V.general.any (fun f => f value)

/-- The working map of discharge macaroons keyed by identifier
(`HashMap<ByteString, Macaroon>`), modelled as an association list with
unique keys; the verifier only inserts, looks up / removes, and tests
emptiness, so the hash iteration order is irrelevant. -/
abbrev DischargeSet := List (ByteString × Macaroon)

/-- Keys of a discharge set. -/
def dsKeys (ds : DischargeSet) : List ByteString := ds.map Prod.fst

/-- `HashMap` insertion: overwrite the entry with an equal key, else add. -/
def dsInsert (k : ByteString) (v : Macaroon) : DischargeSet → DischargeSet
  | [] => [(k, v)]
  | (k', v') :: rest =>
    if k' = k then (k, v) :: rest else (k', v') :: dsInsert k v rest

/-- `HashMap::remove`: take the entry with the given key out of the map,
together with proofs that the remainder is a sublist one element shorter
(used both for termination of the verifier and for the removed-once-never-
rematched property). -/
def dsRemove (k : ByteString) :
    (ds : DischargeSet) →
    Option (Macaroon × { r : DischargeSet // r.Sublist ds ∧ r.length + 1 = ds.length })
  | [] => none
  | (k', v') :: rest =>
    if k' = k then
      some (v', ⟨rest, List.sublist_cons_self (k', v') rest, rfl⟩)
    else
      match dsRemove k rest with
      | none => none
      | some (m, ⟨r, hsub, hlen⟩) =>
        some (m, ⟨(k', v') :: r, hsub.cons₂ (k', v'), by simpa using hlen⟩)

/-- Build the working map from the discharge list:
`discharges.iter().map(|d| (d.identifier.clone(), d.clone())).collect()`,
where collecting into a `HashMap` lets later duplicates overwrite. -/
def buildDischargeSet (discharges : List Macaroon) : DischargeSet :=
  discharges.foldl (fun ds d => dsInsert d.identifier d ds) []

section Verify

variable (hmac : ByteString → ByteString → ByteString)
variable (dec : ByteString → ByteString → Except MacaroonError ByteString)

/-- Message of the `CaveatNotSatisfied` error raised when no (unused)
discharge matches a third-party caveat (`src/verifier.rs`). -/
def noDischargeMsg : ByteString :=
  str2b "no discharge macaroon found (or discharge has already been used) for third-party caveat"

/-- Message of the `CaveatNotSatisfied` error for an unsatisfied first-party
caveat.  In the source the predicate is rendered with
`String::from_utf8_lossy`; the model keeps the raw predicate bytes. -/
def fpUnsatisfiedMsg (predicate : ByteString) : ByteString :=
  str2b "first party caveat not satisfied: " ++ predicate

mutual

/-- The caveat loop of `Verifier::verify_with_sig` (`src/verifier.rs`):
starting from `sig`, process the caveats in order.  A first-party caveat must
match the exact set or a general callback; a third-party caveat decrypts the
caveat key from the verifier-id under the running signature (`dec` stands for
the external `decrypt_key`, which in Rust receives `&mut` access to the
working map), removes the matching discharge from the working map and
recursively verifies it.  Returns the final running signature and what is
left of the working map; the sublist refinement records that the map only
ever shrinks (each discharge is consumed at most once, which is also the
termination measure). -/
def verifyCaveats (V : Verifier) (root_sig : ByteString) (sig : ByteString)
    (caveats : List Caveat) (ds : DischargeSet) :
    Except MacaroonError (ByteString × { r : DischargeSet // r.Sublist ds }) :=
  match caveats with
  | [] => .ok (sig, ⟨ds, List.Sublist.refl ds⟩)
  | c :: rest =>
    match c with
    | .FirstParty predicate =>
      if V.exact.contains predicate || V.verify_general predicate then
        verifyCaveats V root_sig (Caveat.sign hmac c sig) rest ds
      else
        .error (.CaveatNotSatisfied (fpUnsatisfiedMsg predicate))
    | .ThirdParty cid vid _ =>
      match dec sig vid with
      | .error e => .error e
      | .ok caveat_key =>
        match dsRemove cid ds with
        | none => .error (.CaveatNotSatisfied noDischargeMsg)
        | some (dm, ⟨ds1, hsub1, hlen1⟩) =>
          match verify_with_sig V root_sig dm caveat_key ds1 with
          | .error e => .error e
          | .ok ⟨ds2, hsub2⟩ =>
            match verifyCaveats V root_sig (Caveat.sign hmac c sig) rest ds2 with
            | .error e => .error e
            | .ok (sig', ⟨ds3, hsub3⟩) =>
              .ok (sig', ⟨ds3, (hsub3.trans hsub2).trans hsub1⟩)
termination_by (ds.length, caveats.length)
decreasing_by
  · exact Prod.Lex.right ds.length (Nat.lt_succ_self rest.length)
  · exact Prod.Lex.left _ _ (by omega)
  · exact Prod.Lex.left _ _ (by
      have := hsub2.length_le
      omega)

/-- `Verifier::verify_with_sig` (`src/verifier.rs`): seed the running
signature with `hmac(key, m.identifier)`, run the caveat loop, then accept if
the result equals the root signature (primary path) or if binding it to the
root signature reproduces `m.signature` (discharge path); otherwise
`InvalidSignature`. -/
def verify_with_sig (V : Verifier) (root_sig : ByteString) (m : Macaroon)
    (key : ByteString) (ds : DischargeSet) :
    Except MacaroonError { r : DischargeSet // r.Sublist ds } :=
  match verifyCaveats V root_sig (hmac key m.identifier) m.caveats ds with
  | .error e => .error e
  | .ok (sig, ⟨ds', hsub⟩) =>
    if root_sig = sig then
      .ok ⟨ds', hsub⟩
    else if hmac2 hmac zeroKey root_sig sig = m.signature then
      .ok ⟨ds', hsub⟩
    else
      .error .InvalidSignature
termination_by (ds.length, m.caveats.length + 1)
decreasing_by
  exact Prod.Lex.right ds.length (Nat.lt_succ_self m.caveats.length)

end

/-- `Verifier::verify` (`src/verifier.rs`): build the working map, run the
recursive verification with the macaroon's own signature as root, then require
every discharge to have been consumed. -/
def Verifier.verify (V : Verifier) (m : Macaroon) (key : ByteString)
    (discharges : List Macaroon) : Except MacaroonError Unit :=
  match verify_with_sig hmac dec V m.signature m key
      (buildDischargeSet discharges) with
  | .error e => .error e
  | .ok ⟨remaining, _⟩ =>
    if remaining.isEmpty then .ok () else .error .DischargeNotUsed

end Verify

/-! ## Rust `String` conversions -/

/-- Whether a byte is a UTF-8 continuation byte. -/
def utf8Cont (b : Nat) : Bool := 128 ≤ b ∧ b ≤ 191

/-- UTF-8 validity of a byte sequence (the check performed by Rust's
`String::from_utf8` / `str::from_utf8`). -/
def utf8Valid : List Nat → Bool
  | [] => true
  | b :: rest =>
    if b ≤ 127 then utf8Valid rest
    else if 194 ≤ b ∧ b ≤ 223 then
      match rest with
      | b1 :: r => utf8Cont b1 && utf8Valid r
      | [] => false
    else if b = 224 then
      match rest with
      | b1 :: b2 :: r => (160 ≤ b1 && b1 ≤ 191) && utf8Cont b2 && utf8Valid r
      | _ => false
    else if (225 ≤ b ∧ b ≤ 236) ∨ b = 238 ∨ b = 239 then
      match rest with
      | b1 :: b2 :: r => utf8Cont b1 && utf8Cont b2 && utf8Valid r
      | _ => false
    else if b = 237 then
      match rest with
      | b1 :: b2 :: r => (128 ≤ b1 && b1 ≤ 159) && utf8Cont b2 && utf8Valid r
      | _ => false
    else if b = 240 then
      match rest with
      | b1 :: b2 :: b3 :: r =>
        (144 ≤ b1 && b1 ≤ 191) && utf8Cont b2 && utf8Cont b3 && utf8Valid r
      | _ => false
    else if 241 ≤ b ∧ b ≤ 243 then
      match rest with
      | b1 :: b2 :: b3 :: r =>
        utf8Cont b1 && utf8Cont b2 && utf8Cont b3 && utf8Valid r
      | _ => false
    else if b = 244 then
      match rest with
      | b1 :: b2 :: b3 :: r =>
        (128 ≤ b1 && b1 ≤ 143) && utf8Cont b2 && utf8Cont b3 && utf8Valid r
      | _ => false
    else false

/-- Rust `String::from_utf8` on a byte vector, with the failure routed through
`From<FromUtf8Error> for MacaroonError` (a `DeserializationError`; the exact
rendered message of the library error is abbreviated). -/
def rustFromUtf8 (b : ByteString) : Except MacaroonError ByteString :=
  if utf8Valid b then .ok b
  else .error (.DeserializationError (str2b "invalid utf-8 sequence"))

/-! ## Builders (`src/serialization/macaroon_builder.rs` and the caveat
builder used by the deserializers) -/

/-- `MacaroonBuilder`.  `MacaroonBuilder::new()` seeds the signature field
with `MacaroonKey::generate_random()`; the random draw is passed in as `rnd`.
-/
structure MacaroonBuilder where
  identifier : ByteString
  location : Option ByteString
  signature : ByteString
  caveats : List Caveat
deriving Repr

/-- `MacaroonBuilder::new()`, with `rnd` the random initial signature. -/
def MacaroonBuilder.new (rnd : ByteString) : MacaroonBuilder :=
  { identifier := [], location := none, signature := rnd, caveats := [] }

def MacaroonBuilder.set_identifier (b : MacaroonBuilder) (identifier : ByteString) :
    MacaroonBuilder :=
  { b with identifier := identifier }

def MacaroonBuilder.set_location (b : MacaroonBuilder) (location : ByteString) :
    MacaroonBuilder :=
  { b with location := some location }

def MacaroonBuilder.has_location (b : MacaroonBuilder) : Bool :=
  b.location.isSome

/-- `set_signature` copies the 32 given bytes over the signature array
(`clone_from_slice`; every call site first checks the length is 32). -/
def MacaroonBuilder.set_signature (b : MacaroonBuilder) (signature : ByteString) :
    MacaroonBuilder :=
  { b with signature := signature }

def MacaroonBuilder.add_caveat (b : MacaroonBuilder) (caveat : Caveat) :
    MacaroonBuilder :=
  { b with caveats := b.caveats ++ [caveat] }

/-- `MacaroonBuilder::build`. -/
def MacaroonBuilder.build (b : MacaroonBuilder) : Except MacaroonError Macaroon :=
  if b.identifier.isEmpty then
    .error (.IncompleteMacaroon (str2b "no identifier found"))
  else if b.signature.isEmpty then
    .error (.IncompleteMacaroon (str2b "no signature found"))
  else
    .ok { identifier := b.identifier
          location := b.location
          signature := b.signature
          caveats := b.caveats }

/-- The caveat builder used by the deserializers.  Modelled from the spec:
the enum-era `CaveatBuilder` itself is not among the source files (src/ holds
the older trait-object revision, whose `build` has the same case analysis);
per spec §4.F, only-`id` builds a first-party caveat, `id`+`verifier_id`+
`location` builds a third-party caveat, and any other combination is an
`IncompleteCaveat`. -/
structure CaveatBuilder where
  id : Option ByteString
  verifier_id : Option ByteString
  location : Option ByteString
deriving Repr

def CaveatBuilder.new : CaveatBuilder :=
  { id := none, verifier_id := none, location := none }

def CaveatBuilder.add_id (b : CaveatBuilder) (id : ByteString) : CaveatBuilder :=
  { b with id := some id }

def CaveatBuilder.has_id (b : CaveatBuilder) : Bool := b.id.isSome

def CaveatBuilder.add_verifier_id (b : CaveatBuilder) (vid : ByteString) :
    CaveatBuilder :=
  { b with verifier_id := some vid }

def CaveatBuilder.add_location (b : CaveatBuilder) (location : ByteString) :
    CaveatBuilder :=
  { b with location := some location }

def CaveatBuilder.has_location (b : CaveatBuilder) : Bool := b.location.isSome

/-- `CaveatBuilder::build` (modelled from the spec, see `CaveatBuilder`). -/
def CaveatBuilder.build (b : CaveatBuilder) : Except MacaroonError Caveat :=
  match b.id, b.verifier_id, b.location with
  | none, _, _ => .error (.IncompleteCaveat (str2b "no identifier found"))
  | some i, none, none => .ok (.FirstParty i)
  | some i, some v, some l => .ok (.ThirdParty i v l)
  | some _, none, some _ => .error (.IncompleteCaveat (str2b "no verifier ID found"))
  | some _, some _, none => .error (.IncompleteCaveat (str2b "no location found"))

/-! ## V1 serialization (`src/serialization/v1.rs`) -/

namespace v1

/-- The V1 packet tags. -/
def LOCATION : ByteString := str2b "location"
def IDENTIFIER : ByteString := str2b "identifier"
def SIGNATURE : ByteString := str2b "signature"
def CID : ByteString := str2b "cid"
def VID : ByteString := str2b "vid"
def CL : ByteString := str2b "cl"

/-- `to_hex_char` applied to a nibble: the single lowercase hex digit
(`format!("{:1x}", value)`); `packet_header` only passes values `< 16`. -/
def to_hex_char (value : Nat) : Nat :=
  if value < 10 then 48 + value else 87 + value

/-- `packet_header`: four ASCII hex digits of the packet size (`& 15` on each
nibble is written `% 16`). -/
def packet_header (size : Nat) : ByteString :=
  [to_hex_char ((size >>> 12) % 16),
   to_hex_char ((size >>> 8) % 16),
   to_hex_char ((size >>> 4) % 16),
   to_hex_char (size % 16)]

/-- `serialize_as_packet`: header, tag, one space, value, newline. -/
def serialize_as_packet (tag value : ByteString) : ByteString :=
  packet_header (4 + 2 + tag.length + value.length) ++ tag ++ [32] ++ value ++ [10]

/-- The packets a caveat contributes to the V1 stream. -/
def caveatPackets : Caveat → ByteString
  | .FirstParty predicate => serialize_as_packet CID predicate
  | .ThirdParty id vid location =>
    serialize_as_packet CID id ++ serialize_as_packet VID vid ++
      serialize_as_packet CL location

/-- `v1::serialize_binary` (the `Result` wrapper in the source never errors).
-/
def serialize_binary (m : Macaroon) : ByteString :=
  (match m.location with
   | some location => serialize_as_packet LOCATION location
   | none => []) ++
  serialize_as_packet IDENTIFIER m.identifier ++
  (m.caveats.map caveatPackets).flatten ++
  serialize_as_packet SIGNATURE m.signature

/-- A parsed V1 packet. -/
structure Packet where
  key : ByteString
  value : ByteString
deriving DecidableEq, Repr

/-- The packets a caveat contributes, as parsed `Packet` values (the
(tag, value) view of `caveatPackets`, used to relate serialization and
parsing). -/
def caveatPacketList : Caveat → List Packet
  | .FirstParty predicate => [⟨CID, predicate⟩]
  | .ThirdParty id vid location => [⟨CID, id⟩, ⟨VID, vid⟩, ⟨CL, location⟩]

/-- The full packet sequence of a macaroon's V1 stream, as parsed `Packet`
values. -/
def packetList (m : Macaroon) : List Packet :=
  (match m.location with
   | some location => [⟨LOCATION, location⟩]
   | none => []) ++
  [⟨IDENTIFIER, m.identifier⟩] ++
  (m.caveats.map caveatPacketList).flatten ++
  [⟨SIGNATURE, m.signature⟩]

/-- Well-formedness of a packet as the stream lemmas need it: a space-free
tag that is valid UTF-8, and a total packet size that fits the four hex
header digits. -/
def packetWf (p : Packet) : Prop :=
  (∀ b ∈ p.key, b ≠ 32) ∧ utf8Valid p.key = true ∧
    4 + 2 + p.key.length + p.value.length ≤ 65535

/-- One ASCII hex digit (`usize::from_str_radix(_, 16)` accepts both cases).
-/
def hexDigit? (b : Nat) : Option Nat :=
  if 48 ≤ b ∧ b ≤ 57 then some (b - 48)
  else if 97 ≤ b ∧ b ≤ 102 then some (b - 87)
  else if 65 ≤ b ∧ b ≤ 70 then some (b - 55)
  else none

/-- `str::from_utf8` + `usize::from_str_radix(_, 16)` on the four header
bytes (the model requires four hex digits; the two Rust error paths collapse
into one `DeserializationError` whose library-rendered message is
abbreviated). -/
def parseHex4 (bs : ByteString) : Option Nat :=
  match bs with
  | [a, b, c, d] =>
    match hexDigit? a, hexDigit? b, hexDigit? c, hexDigit? d with
    | some x, some y, some z, some w => some (((x * 16 + y) * 16 + z) * 16 + w)
    | _, _, _, _ => none
  | _ => none

/-- `deserialize_as_packets`: split the byte stream into size-prefixed
packets, accumulating them in order. -/
def deserialize_as_packets (data : List Nat) (packets : List Packet) :
    Except MacaroonError (List Packet) :=
  if hdata : data.isEmpty then .ok packets
  else if data.length < 4 then
    .error (.DeserializationError (str2b "packet chunk too small to decode"))
  else
    match parseHex4 (data.take 4) with
    | none => .error (.DeserializationError (str2b "invalid packet size header"))
    | some size =>
      if size > data.length then
        .error (.DeserializationError (str2b "packet chunk size larger than token"))
      else if hsize : size ≤ 4 then
        .error (.DeserializationError (str2b "packet chunk size too small"))
      else
        let packet_data := (data.take size).drop 4
        match packet_data.findIdx? (· == 32) with
        | none => .error (.DeserializationError (str2b "Key/value error"))
        | some index =>
          let key_slice := packet_data.take index
          let value_slice := packet_data.drop index
          if value_slice.length < 2 then
            .error (.DeserializationError (str2b "packet value size too small"))
          else
            match rustFromUtf8 key_slice with
            | .error e => .error e
            | .ok key =>
              deserialize_as_packets (data.drop size)
                (packets ++ [{ key := key,
                               value := (value_slice.drop 1).dropLast }])
termination_by data.length
decreasing_by
  simp only [List.length_drop]
  simp only [List.isEmpty_iff] at hdata
  have : 0 < data.length := List.length_pos.mpr hdata
  omega

/-- The body of the packet loop in `v1::deserialize`, threading the macaroon
builder and the in-progress caveat builder. -/
def processPackets (packets : List Packet)
    (builder : MacaroonBuilder) (cb : CaveatBuilder) :
    Except MacaroonError (MacaroonBuilder × CaveatBuilder) :=
  match packets with
  | [] => .ok (builder, cb)
  | p :: rest =>
    if p.key = LOCATION then
      match rustFromUtf8 p.value with
      | .error e => .error e
      | .ok location => processPackets rest (builder.set_location location) cb
    else if p.key = IDENTIFIER then
      processPackets rest (builder.set_identifier p.value) cb
    else if p.key = SIGNATURE then
      match (if cb.has_id then
               match cb.build with
               | .error e => .error e
               | .ok c => .ok (builder.add_caveat c, CaveatBuilder.new)
             else .ok (builder, cb) :
              Except MacaroonError (MacaroonBuilder × CaveatBuilder)) with
      | .error e => .error e
      | .ok (builder', cb') =>
        if p.value.length ≠ 32 then
          .error (.DeserializationError (str2b "Illegal signature length in packet"))
        else
          processPackets rest (builder'.set_signature p.value) cb'
    else if p.key = CID then
      if cb.has_id then
        match cb.build with
        | .error e => .error e
        | .ok c =>
          processPackets rest (builder.add_caveat c)
            (CaveatBuilder.new.add_id p.value)
      else
        processPackets rest builder (cb.add_id p.value)
    else if p.key = VID then
      processPackets rest builder (cb.add_verifier_id p.value)
    else if p.key = CL then
      match rustFromUtf8 p.value with
      | .error e => .error e
      | .ok location => processPackets rest builder (cb.add_location location)
    else
      .error (.DeserializationError (str2b "Unknown key"))

/-- `v1::deserialize` on a binary (already base64-decoded) token. -/
def deserialize (rnd : ByteString) (data : List Nat) :
    Except MacaroonError Macaroon :=
  match deserialize_as_packets data [] with
  | .error e => .error e
  | .ok packets =>
    match processPackets packets (MacaroonBuilder.new rnd) CaveatBuilder.new with
    | .error e => .error e
    | .ok (builder, _) => builder.build

end v1

/-! ## V2 binary serialization (`src/serialization/v2.rs`) -/

namespace v2

/-- Field tags of the V2 format. -/
def EOS : Nat := 0
def LOCATION : Nat := 1
def IDENTIFIER : Nat := 2
def VID : Nat := 4
def SIGNATURE : Nat := 6

/-- `varint_size`: 7-bit groups, least significant first, high bit marking
continuation (`& 127 | 128` is written as `% 128 + 128`, and `>> 7` as
`/ 128`). -/
def varint_size (size : Nat) : List Nat :=
  if size ≥ 128 then (size % 128 + 128) :: varint_size (size / 128)
  else [size]
termination_by size
decreasing_by
  exact Nat.div_lt_self (by omega) (by omega)

/-- `serialize_field`: tag byte, varint length, value bytes. -/
def serialize_field (tag : Nat) (value : ByteString) : ByteString :=
  tag :: varint_size value.length ++ value

/-- The bytes a caveat contributes to the V2 stream. -/
def caveatBytes : Caveat → ByteString
  | .FirstParty predicate => serialize_field IDENTIFIER predicate ++ [EOS]
  | .ThirdParty id vid location =>
    serialize_field LOCATION location ++ serialize_field IDENTIFIER id ++
      serialize_field VID vid ++ [EOS]

/-- `v2::serialize` (the `Result` wrapper in the source never errors): the
binary V2 layout. -/
def serialize (m : Macaroon) : ByteString :=
  [2] ++
  (match m.location with
   | some location => serialize_field LOCATION location
   | none => []) ++
  serialize_field IDENTIFIER m.identifier ++ [EOS] ++
  (m.caveats.map caveatBytes).flatten ++ [EOS] ++
  serialize_field SIGNATURE m.signature

/-- The `Deserializer` of v2.rs reads the byte slice left to right; it is
modelled by passing the not-yet-consumed suffix, together with a proof that
reading consumes at least one byte (used for termination of the caveat
loop). -/
def get_byte : (data : List Nat) →
    Except MacaroonError (Nat × { r : List Nat // r.length < data.length })
  | [] => .error (.DeserializationError (str2b "Buffer overrun"))
  | b :: rest => .ok (b, ⟨rest, Nat.lt_succ_self rest.length⟩)

/-- `u8` shift-left as performed by `(byte << shift) as usize` in
`get_field_size`: the shifted value is a `u8`, so the shift amount is masked
to the word size and high bits are discarded before the cast (release-mode
semantics; in debug mode a shift amount of 8 or more panics instead, which
the model does not distinguish since no theorem below exercises a varint of
three or more bytes). -/
def u8shl (x shift : Nat) : Nat := (x <<< (shift % 8)) % 256

/-- The body of the `while shift <= 63` loop of `get_field_size`; the loop
runs at most 10 times (`shift = 0, 7, …, 63`), counted down by `k`. -/
def get_field_size_go : (k : Nat) → (shift : Nat) → (size : Nat) →
    (data : List Nat) →
    Except MacaroonError (Nat × { r : List Nat // r.length < data.length })
  | 0, _, _, _ => .error (.DeserializationError (str2b "Error in field size"))
  | k + 1, shift, size, data =>
    match get_byte data with
    | .error e => .error e
    | .ok (byte, ⟨rest, hr⟩) =>
      if byte &&& 128 ≠ 0 then
        match get_field_size_go k (shift + 7) (size ||| u8shl (byte &&& 127) shift) rest with
        | .error e => .error e
        | .ok (n, ⟨r, h⟩) => .ok (n, ⟨r, h.trans hr⟩)
      else
        .ok (size ||| u8shl byte shift, ⟨rest, hr⟩)

/-- `get_field_size`. -/
def get_field_size (data : List Nat) :
    Except MacaroonError (Nat × { r : List Nat // r.length < data.length }) :=
  get_field_size_go 10 0 0 data

/-- `get_field`: read the varint size, check it fits in the remaining bytes,
and slice the field out. -/
def get_field (data : List Nat) :
    Except MacaroonError (ByteString × { r : List Nat // r.length < data.length }) :=
  match get_field_size data with
  | .error e => .error e
  | .ok (size, ⟨rest, h⟩) =>
    if size > rest.length then
      .error (.DeserializationError (str2b "Unexpected end of field"))
    else
      .ok (rest.take size,
        ⟨rest.drop size, lt_of_le_of_lt (by simp [Nat.sub_le]) h⟩)

/-- `get_eos`. -/
def get_eos (data : List Nat) :
    Except MacaroonError { r : List Nat // r.length < data.length } :=
  match get_byte data with
  | .error e => .error e
  | .ok (b, rest) =>
    if b = EOS then .ok rest
    else .error (.DeserializationError (str2b "Expected EOS"))

/-- The caveat section loop of `v2::deserialize` (`while tag != EOS`):
`tag` is the tag byte already read, `data` the bytes after it. -/
def caveatLoop (tag : Nat) (data : List Nat) (builder : MacaroonBuilder) :
    Except MacaroonError (MacaroonBuilder × List Nat) :=
  if tag = EOS then .ok (builder, data)
  else
    match hstep1 :
        (if tag = LOCATION then
          match get_field data with
          | .error e => .error e
          | .ok (field, rest) =>
            match rustFromUtf8 field with
            | .error e => .error e
            | .ok location =>
              .ok (CaveatBuilder.new.add_location location, rest)
         else if tag = IDENTIFIER then
          match get_field data with
          | .error e => .error e
          | .ok (field, rest) => .ok (CaveatBuilder.new.add_id field, rest)
         else
          .error (.DeserializationError (str2b "Caveat identifier not found")) :
         Except MacaroonError
           (CaveatBuilder × { r : List Nat // r.length < data.length })) with
    | .error e => .error e
    | .ok (cb, ⟨rest1, h1⟩) =>
      match hstep2 :
          (if cb.has_location then
            match get_byte rest1 with
            | .error e => .error e
            | .ok (tag2, ⟨rest2, h2⟩) =>
              if tag2 = IDENTIFIER then
                match get_field rest2 with
                | .error e => .error e
                | .ok (field, ⟨rest3, h3⟩) =>
                  .ok (cb.add_id field, ⟨rest3, (h3.trans h2).le⟩)
              else
                .error (.DeserializationError (str2b "Caveat identifier not found"))
           else .ok (cb, ⟨rest1, Nat.le_refl rest1.length⟩) :
           Except MacaroonError
             (CaveatBuilder × { r : List Nat // r.length ≤ rest1.length })) with
      | .error e => .error e
      | .ok (cb1, ⟨rest4, h4⟩) =>
        match get_byte rest4 with
        | .error e => .error e
        | .ok (tag3, ⟨rest5, h5⟩) =>
          if tag3 = VID then
            match get_field rest5 with
            | .error e => .error e
            | .ok (field, ⟨rest6, h6⟩) =>
              match (cb1.add_verifier_id field).build with
              | .error e => .error e
              | .ok c =>
                match get_eos rest6 with
                | .error e => .error e
                | .ok ⟨rest7, h7⟩ =>
                  match get_byte rest7 with
                  | .error e => .error e
                  | .ok (tag4, ⟨rest8, h8⟩) =>
                    caveatLoop tag4 rest8 (builder.add_caveat c)
          else if tag3 = EOS then
            match cb1.build with
            | .error e => .error e
            | .ok c =>
              match get_byte rest5 with
              | .error e => .error e
              | .ok (tag4, ⟨rest8, h8⟩) =>
                caveatLoop tag4 rest8 (builder.add_caveat c)
          else
            .error (.DeserializationError (str2b "Unexpected caveat tag found"))
termination_by data.length
decreasing_by
  · omega
  · omega

/-- `v2::deserialize`. -/
def deserialize (rnd : ByteString) (data : List Nat) :
    Except MacaroonError Macaroon :=
  match get_byte data with
  | .error e => .error e
  | .ok (version, ⟨rest0, _⟩) =>
    if version ≠ 2 then
      .error (.DeserializationError (str2b "Wrong version number"))
    else
      match get_byte rest0 with
      | .error e => .error e
      | .ok (tag, ⟨rest1, _⟩) =>
        match
          (if tag = LOCATION then
            match get_field rest1 with
            | .error e => .error e
            | .ok (field, rest) =>
              match rustFromUtf8 field with
              | .error e => .error e
              | .ok location =>
                .ok ((MacaroonBuilder.new rnd).set_location location, rest.val)
           else if tag = IDENTIFIER then
            match get_field rest1 with
            | .error e => .error e
            | .ok (field, rest) =>
              .ok ((MacaroonBuilder.new rnd).set_identifier field, rest.val)
           else
            .error (.DeserializationError (str2b "Identifier not found")) :
           Except MacaroonError (MacaroonBuilder × List Nat)) with
        | .error e => .error e
        | .ok (builder0, rest2) =>
          match
            (if builder0.has_location then
              match get_byte rest2 with
              | .error e => .error e
              | .ok (tag2, rest3) =>
                if tag2 = IDENTIFIER then
                  match get_field rest3.val with
                  | .error e => .error e
                  | .ok (field, rest4) =>
                    .ok (builder0.set_identifier field, rest4.val)
                else
                  .error (.DeserializationError (str2b "Identifier not found"))
             else .ok (builder0, rest2) :
             Except MacaroonError (MacaroonBuilder × List Nat)) with
          | .error e => .error e
          | .ok (builder1, rest5) =>
            match get_eos rest5 with
            | .error e => .error e
            | .ok rest6 =>
              match get_byte rest6.val with
              | .error e => .error e
              | .ok (tag, rest7) =>
                match caveatLoop tag rest7.val builder1 with
                | .error e => .error e
                | .ok (builder2, rest8) =>
                  match get_byte rest8 with
                  | .error e => .error e
                  | .ok (tag, rest9) =>
                    if tag = SIGNATURE then
                      match get_field rest9.val with
                      | .error e => .error e
                      | .ok (sig, _) =>
                        if sig.length ≠ 32 then
                          .error (.DeserializationError (str2b "Bad signature length"))
                        else
                          (builder2.set_signature sig).build
                    else
                      .error (.DeserializationError (str2b "Unexpected tag found"))

end v2

/-! ## V2J JSON serialization (`src/serialization/v2json.rs`)

The `serde_json` text layer is external: rendering a `Serialization` struct
to JSON text and parsing JSON text back into the struct enter the model as
the parameters `jsonRender` / `jsonParse`.  The struct itself, its
population from a macaroon (`Serialization::from_macaroon`) and its
conversion back (`Macaroon::from_json`) are repository code and are modelled
below.  Raw byte fields (`Option<ByteString>` / `Option<Vec<u8>>` in the
struct) hold raw bytes; `64`-suffixed fields that the struct stores as Rust
`String` hold the base64 text bytes. -/

namespace v2json

/-- The `Caveat` struct of v2json.rs (a JSON caveat object). -/
structure JsonCaveat where
  i : Option ByteString
  i64 : Option ByteString
  l : Option ByteString
  l64 : Option ByteString
  v : Option ByteString
  v64 : Option ByteString
deriving DecidableEq, Repr

/-- The `Serialization` struct of v2json.rs (a JSON macaroon object). -/
structure Serialization where
  v : Nat
  i : Option ByteString
  i64 : Option ByteString
  l : Option ByteString
  l64 : Option ByteString
  c : List JsonCaveat
  s : Option ByteString
  s64 : Option ByteString
deriving DecidableEq, Repr

/-- The JSON object a caveat serializes to (`Serialization::from_macaroon`).
-/
def caveatToJson : Caveat → JsonCaveat
  | .FirstParty predicate =>
    { i := none, i64 := some predicate, l := none, l64 := none,
      v := none, v64 := none }
  | .ThirdParty id vid location =>
    { i := none, i64 := some id, l := some location, l64 := none,
      v := none, v64 := some vid }

/-- `Serialization::from_macaroon` (the `Result` wrapper never errors):
identifier goes to `i64`, location to `l`, signature to `s64` as URL-safe
base64 text (`b64eUrl` is the external `base64::encode_engine` with the
URL-safe padding engine). -/
def from_macaroon (b64eUrl : ByteString → ByteString) (m : Macaroon) :
    Serialization :=
  { v := 2
    i := none
    i64 := some m.identifier
    l := m.location
    l64 := none
    c := m.caveats.map caveatToJson
    s := none
    s64 := some (b64eUrl m.signature) }

/-- The caveat loop of `Macaroon::from_json`.  Note that for the caveat
field pairs the un-suffixed member is simply preferred; both being present
is not an error. -/
def processJsonCaveats (b64dUrl : ByteString → Except MacaroonError ByteString)
    (cs : List JsonCaveat) (builder : MacaroonBuilder) :
    Except MacaroonError MacaroonBuilder :=
  match cs with
  | [] => .ok builder
  | c :: rest =>
    match
      (match c.i with
       | some id => .ok (CaveatBuilder.new.add_id id)
       | none =>
         match c.i64 with
         | some id64 => .ok (CaveatBuilder.new.add_id id64)
         | none => .error (.DeserializationError (str2b "No caveat ID found")) :
       Except MacaroonError CaveatBuilder) with
    | .error e => .error e
    | .ok cb0 =>
      match
        (match c.l with
         | some location => .ok (cb0.add_location location)
         | none =>
           match c.l64 with
           | some loc64 =>
             match b64dUrl loc64 with
             | .error e => .error e
             | .ok bytes =>
               match rustFromUtf8 bytes with
               | .error e => .error e
               | .ok location => .ok (cb0.add_location location)
           | none => .ok cb0 :
         Except MacaroonError CaveatBuilder) with
      | .error e => .error e
      | .ok cb1 =>
        let cb2 :=
          match c.v with
          | some vid => cb1.add_verifier_id vid
          | none =>
            match c.v64 with
            | some vid64 => cb1.add_verifier_id vid64
            | none => cb1
        match cb2.build with
        | .error e => .error e
        | .ok caveat => processJsonCaveats b64dUrl rest (builder.add_caveat caveat)

/-- `Macaroon::from_json`: pair checks on the macaroon-level fields, then
identifier, location, signature, then the caveats. -/
def from_json (b64dUrl : ByteString → Except MacaroonError ByteString)
    (rnd : ByteString) (ser : Serialization) : Except MacaroonError Macaroon :=
  if ser.i.isSome ∧ ser.i64.isSome then
    .error (.DeserializationError (str2b "Found i and i64 fields"))
  else if ser.l.isSome ∧ ser.l64.isSome then
    .error (.DeserializationError (str2b "Found l and l64 fields"))
  else if ser.s.isSome ∧ ser.s64.isSome then
    .error (.DeserializationError (str2b "Found s and s64 fields"))
  else
    match
      (match ser.i with
       | some id => .ok id
       | none =>
         match ser.i64 with
         | some id => .ok id
         | none => .error (.DeserializationError (str2b "No identifier found")) :
       Except MacaroonError ByteString) with
    | .error e => .error e
    | .ok identifier =>
      let builder0 := (MacaroonBuilder.new rnd).set_identifier identifier
      match
        (match ser.l with
         | some location => .ok (builder0.set_location location)
         | none =>
           match ser.l64 with
           | some loc64 =>
             match b64dUrl loc64 with
             | .error e => .error e
             | .ok bytes =>
               match rustFromUtf8 bytes with
               | .error e => .error e
               | .ok location => .ok (builder0.set_location location)
           | none => .ok builder0 :
         Except MacaroonError MacaroonBuilder) with
      | .error e => .error e
      | .ok builder1 =>
        match
          (match ser.s with
           | some sig => .ok sig
           | none =>
             match ser.s64 with
             | some sig64 => b64dUrl sig64
             | none => .error (.DeserializationError (str2b "No signature found")) :
           Except MacaroonError ByteString) with
        | .error e => .error e
        | .ok raw_sig =>
          if raw_sig.length ≠ 32 then
            .error (.DeserializationError (str2b "Illegal signature length"))
          else
            match processJsonCaveats b64dUrl ser.c (builder1.set_signature raw_sig) with
            | .error e => .error e
            | .ok builder2 => builder2.build

/-- `v2json::serialize`: render the struct as JSON text (`serde_json`
external). -/
def serialize (jsonRender : Serialization → ByteString)
    (b64eUrl : ByteString → ByteString) (m : Macaroon) : ByteString :=
  jsonRender (from_macaroon b64eUrl m)

/-- `v2json::deserialize`: parse the JSON text (`serde_json` external, its
parse errors already mapped to `DeserializationError`) and convert. -/
def deserialize (jsonParse : ByteString → Except MacaroonError Serialization)
    (b64dUrl : ByteString → Except MacaroonError ByteString)
    (rnd : ByteString) (data : ByteString) : Except MacaroonError Macaroon :=
  match jsonParse data with
  | .error e => .error e
  | .ok ser => from_json b64dUrl rnd ser

end v2json

/-! ## Format dispatch (`src/lib.rs`) -/

/-- The `Format` enum of `src/serialization/mod.rs`. -/
inductive Format where
  | V1
  | V2
  | V2JSON
deriving DecidableEq, Repr

/-- `base64_decode_flexible` from `src/lib.rs`: URL-safe when the token
contains `_` or `-`, standard otherwise.  The two engine decoders of the
external `base64` crate are the parameters `decUrl` / `decStd`. -/
def base64_decode_flexible
    (decUrl decStd : ByteString → Except MacaroonError ByteString)
    (b : ByteString) : Except MacaroonError ByteString :=
  if b.isEmpty then
    .error (.DeserializationError (str2b "empty token to deserialize"))
  else if b.contains 95 || b.contains 45 then decUrl b
  else decStd b

/-- Whether a leading byte selects the V1 deserializer in
`Macaroon::deserialize_binary` (`'a'..='f' | 'A'..='Z' | '0'..='9'`). -/
def v1LeadingByte (b : Nat) : Bool :=
  (97 ≤ b ∧ b ≤ 102) || (65 ≤ b ∧ b ≤ 90) || (48 ≤ b ∧ b ≤ 57)

/-- `Macaroon::deserialize_binary` from `src/lib.rs`: dispatch a binary
token on its first byte, then `validate`. -/
def Macaroon.deserialize_binary (rnd : ByteString) (token : ByteString) :
    Except MacaroonError Macaroon :=
  match token with
  | [] => .error (.DeserializationError (str2b "empty macaroon token"))
  | b :: _ =>
    (if b = 2 then v2.deserialize rnd token
     else if v1LeadingByte b then v1.deserialize rnd token
     else .error (.DeserializationError
       (str2b "unknown macaroon serialization format"))) >>= Macaroon.validate

/-- `Macaroon::deserialize` from `src/lib.rs`: `{` selects V2J, anything
else is base64-decoded (flexibly) and dispatched as binary; the result is
validated. -/
def Macaroon.deserialize
    (jsonParse : ByteString → Except MacaroonError v2json.Serialization)
    (decUrl decStd : ByteString → Except MacaroonError ByteString)
    (rnd : ByteString) (token : ByteString) : Except MacaroonError Macaroon :=
  match token with
  | [] => .error (.DeserializationError (str2b "empty token provided"))
  | b :: _ =>
    (if b = 123 then v2json.deserialize jsonParse decUrl rnd token
     else
       match base64_decode_flexible decUrl decStd token with
       | .error e => .error e
       | .ok binary => Macaroon.deserialize_binary rnd binary) >>=
      Macaroon.validate

/-- Field-size well-formedness of a caveat: every variable-length field is at
most 255 bytes, and the third-party location (a Rust `String`) is valid
UTF-8. -/
def caveatWf : Caveat → Bool
  | .FirstParty predicate => predicate.length ≤ 255
  | .ThirdParty id vid location =>
    id.length ≤ 255 && vid.length ≤ 255 && location.length ≤ 255 &&
      utf8Valid location

/-- Well-formedness of a macaroon as the serialization theorems use it: the
invariants every Rust `Macaroon` value enjoys by construction (non-empty
identifier, 32-byte signature array, locations valid UTF-8 because they are
Rust `String`s), plus the 255-byte bound on each variable-length field. -/
def Macaroon.wf255 (m : Macaroon) : Bool :=
  !m.identifier.isEmpty && m.identifier.length ≤ 255 &&
  (match m.location with
   | some location => location.length ≤ 255 && utf8Valid location
   | none => true) &&
  m.signature.length = 32 &&
  m.caveats.all caveatWf

/-- Erase the `64`-suffixed member of each caveat field pair whose
un-suffixed member is present (used to state that `from_json` ignores the
suffixed member in that situation rather than failing). -/
def v2json.JsonCaveat.scrub (c : v2json.JsonCaveat) : v2json.JsonCaveat :=
  { c with
    i64 := if c.i.isSome then none else c.i64
    l64 := if c.l.isSome then none else c.l64
    v64 := if c.v.isSome then none else c.v64 }

/-- Apply `JsonCaveat.scrub` to every caveat of a `Serialization`. -/
def v2json.Serialization.scrubCaveats (ser : v2json.Serialization) :
    v2json.Serialization :=
  { ser with c := ser.c.map v2json.JsonCaveat.scrub }

/-- `Macaroon::serialize` from `src/lib.rs`.  For V1 the source base64-
encodes the packet stream inside `v1::serialize`; for V2 the binary stream
is likewise returned as URL-safe base64.  Modelled from the spec for the V2
wrapper: src/ holds an older `v2::serialize` revision that returns the raw
bytes, while the `lib.rs` documentation and the spec fix the lib-level V2
output to be URL-safe padded base64 of that binary. -/
def Macaroon.serialize (b64eUrl : ByteString → ByteString)
    (jsonRender : v2json.Serialization → ByteString)
    (m : Macaroon) (format : Format) : ByteString :=
  match format with
  | .V1 => b64eUrl (v1.serialize_binary m)
  | .V2 => b64eUrl (v2.serialize m)
  | .V2JSON => v2json.serialize jsonRender b64eUrl m

/-! # Theorems -/

/-! ## Construction (claims C7, C6, C1) -/

/-- C7: for every key `k` and identifier `id`, if `id` is non-empty then
`Macaroon::create(loc, k, id)` returns `Ok` with signature `hmac(k, id)`,
empty caveat list, and the given identifier and location; if `id` is empty
it returns an `IncompleteMacaroon` error.  (The hypothesis that `hmac`
produces 32 bytes is the HMAC-SHA256 output-length contract, under which the
`signature.is_empty()` branch of `validate` is unreachable, as it is in Rust
where the signature is a `[u8; 32]`.) -/
theorem claim_C7_create (hmac : ByteString → ByteString → ByteString)
    (location : Option ByteString) (k id : ByteString)
    (hlen : (hmac k id).length = 32) :
    (id = [] →
      Macaroon.create hmac location k id =
        .error (.IncompleteMacaroon (str2b "no identifier found"))) ∧
    (id ≠ [] →
      Macaroon.create hmac location k id =
        .ok { identifier := id, location := location,
              signature := hmac k id, caveats := [] }) := by
  constructor
  · intro h
    subst h
    rfl
  · intro h
    have hs : (hmac k id).isEmpty = false := by
      cases hh : hmac k id with
      | nil => rw [hh] at hlen; simp at hlen
      | cons a l => rfl
    simp [Macaroon.create, Macaroon.validate, h, hs]

/-- Witness for C7 at a concrete input. -/
theorem claim_C7_create_witness :
    (Macaroon.create (fun _ _ => List.replicate 32 7) none [1, 2] [] =
      .error (.IncompleteMacaroon (str2b "no identifier found"))) ∧
    (Macaroon.create (fun _ _ => List.replicate 32 7) none [1, 2] [5] =
      .ok { identifier := [5], location := none,
            signature := List.replicate 32 7, caveats := [] }) :=
  ⟨(claim_C7_create (fun _ _ => List.replicate 32 7) none [1, 2] []
      (by decide)).1 rfl,
   (claim_C7_create (fun _ _ => List.replicate 32 7) none [1, 2] [5]
      (by decide)).2 (by decide)⟩

/-- C6: `bind` replaces the discharge's signature with
`hmac2(0^32, primary.signature, discharge.signature_before)` and leaves every
other field of the discharge unchanged.  (`bind` takes the primary by shared
reference, so no field of the primary can be modified; in this functional
model the primary is an unchanged input.) -/
theorem claim_C6_bind (hmac : ByteString → ByteString → ByteString)
    (p d : Macaroon) :
    (p.bind hmac d).signature = hmac2 hmac zeroKey p.signature d.signature ∧
    (p.bind hmac d).identifier = d.identifier ∧
    (p.bind hmac d).location = d.location ∧
    (p.bind hmac d).caveats = d.caveats :=
  ⟨rfl, rfl, rfl, rfl⟩

/-- Appending one caveat extends the signature fold by that caveat's signing
rule. -/
theorem signatureFold_append (hmac : ByteString → ByteString → ByteString)
    (init : ByteString) (cs : List Caveat) (c : Caveat) :
    signatureFold hmac init (cs ++ [c]) =
      Caveat.sign hmac c (signatureFold hmac init cs) := by
  simp [signatureFold]

/-- Each attenuation step preserves spec invariant I2 (signature = fold of
the signing rules over the caveat list). -/
theorem attenuate_preserves_fold (hmac : ByteString → ByteString → ByteString)
    (enc : ByteString → ByteString → ByteString) (init : ByteString) :
    ∀ (ops : List Attenuation) (m : Macaroon),
      m.signature = signatureFold hmac init m.caveats →
      (ops.foldl (Macaroon.attenuate hmac enc) m).signature =
        signatureFold hmac init
          (ops.foldl (Macaroon.attenuate hmac enc) m).caveats := by
  intro ops
  induction ops with
  | nil => intro m h; exact h
  | cons a rest ih =>
    intro m h
    simp only [List.foldl_cons]
    apply ih
    cases a with
    | first predicate =>
      simp [Macaroon.attenuate, Macaroon.add_first_party_caveat,
        signatureFold_append, h]
    | third location key id =>
      simp [Macaroon.attenuate, Macaroon.add_third_party_caveat,
        signatureFold_append, h]

/-- C1: for every root key, non-empty identifier and finite sequence of
attenuations applied to the created macaroon, the resulting stored signature
equals the left fold of the per-caveat signing rules over the resulting
caveat list starting from `hmac(k, id)`, and each attenuation appends
exactly one caveat at the end, preserving the existing order. -/
theorem claim_C1_attenuation_fold
    (hmac enc : ByteString → ByteString → ByteString)
    (location : Option ByteString) (k id : ByteString)
    (ops : List Attenuation)
    (hid : id ≠ []) (hlen : (hmac k id).length = 32) :
    (Macaroon.create hmac location k id =
      .ok { identifier := id, location := location,
            signature := hmac k id, caveats := [] }) ∧
    ((ops.foldl (Macaroon.attenuate hmac enc)
        { identifier := id, location := location,
          signature := hmac k id, caveats := [] }).signature =
      signatureFold hmac (hmac k id)
        (ops.foldl (Macaroon.attenuate hmac enc)
          { identifier := id, location := location,
            signature := hmac k id, caveats := [] }).caveats) ∧
    (∀ (m : Macaroon) (a : Attenuation),
      ∃ c, (Macaroon.attenuate hmac enc m a).caveats = m.caveats ++ [c]) := by
  refine ⟨(claim_C7_create hmac location k id hlen).2 hid, ?_, ?_⟩
  · exact attenuate_preserves_fold hmac enc (hmac k id) ops _ rfl
  · intro m a
    cases a with
    | first predicate => exact ⟨_, rfl⟩
    | third l key i => exact ⟨_, rfl⟩

/-- Witness for C1 at a concrete input (one first-party and one third-party
attenuation). -/
theorem claim_C1_attenuation_fold_witness :
    ((([Attenuation.first [9], Attenuation.third [8] [7] [6]]).foldl
        (Macaroon.attenuate (fun k t => k ++ t) (fun s k => s ++ k))
        { identifier := [5], location := none,
          signature := (fun (k t : ByteString) => k ++ t) (List.replicate 31 0) [5],
          caveats := [] }).signature =
      signatureFold (fun k t => k ++ t)
        ((fun (k t : ByteString) => k ++ t) (List.replicate 31 0) [5])
        (([Attenuation.first [9], Attenuation.third [8] [7] [6]]).foldl
          (Macaroon.attenuate (fun k t => k ++ t) (fun s k => s ++ k))
          { identifier := [5], location := none,
            signature := (fun (k t : ByteString) => k ++ t) (List.replicate 31 0) [5],
            caveats := [] }).caveats) :=
  (claim_C1_attenuation_fold (fun k t => k ++ t) (fun s k => s ++ k) none
    (List.replicate 31 0) [5] [Attenuation.first [9], Attenuation.third [8] [7] [6]]
    (by decide) (by decide)).2.1

/-! ## Crypto layer (claims C10, C3) -/

/-- C10: the `From<Vec<u8>>` conversion to `MacaroonKey` panics when given
fewer than 32 bytes and silently keeps only the first 32 bytes when given
more; consequently `decrypt_key` panics on an under-length recovered
plaintext and returns `Ok` (with the plaintext truncated to 32 bytes, never
an error) on an over-length one. -/
theorem claim_C10_key_from_vec (bytes : ByteString)
    (aead : ByteString → ByteString → ByteString → Option ByteString)
    (key data pt : ByteString)
    (hlong : NONCE_BYTES + KEY_BYTES < data.length)
    (hpt : aead key (data.take NONCE_BYTES) (data.drop NONCE_BYTES) = some pt) :
    (bytes.length < KEY_BYTES →
      macaroonKeyFromVec bytes = .panicked (str2b "invalid key size")) ∧
    (KEY_BYTES ≤ bytes.length →
      macaroonKeyFromVec bytes = .ok (bytes.take KEY_BYTES)) ∧
    (pt.length < KEY_BYTES →
      decrypt_key aead key data = .panicked (str2b "invalid key size")) ∧
    (KEY_BYTES ≤ pt.length →
      decrypt_key aead key data = .ok (pt.take KEY_BYTES)) := by
  have hnotshort : ¬ data.length ≤ NONCE_BYTES + KEY_BYTES := by omega
  refine ⟨fun h => ?_, fun h => ?_, fun h => ?_, fun h => ?_⟩
  · simp [macaroonKeyFromVec, h]
  · simp [macaroonKeyFromVec, Nat.not_lt.mpr h]
  · simp [decrypt_key, DefaultEncryptor.decrypt, hnotshort, hpt,
      macaroonKeyFromVec, h]
  · simp [decrypt_key, DefaultEncryptor.decrypt, hnotshort, hpt,
      macaroonKeyFromVec, Nat.not_lt.mpr h]

/-- Witness for C10 at concrete inputs: a 1-byte vector panics, and a
45-byte ciphertext whose (stubbed) AEAD yields a 33-byte plaintext is
accepted with the last byte silently dropped. -/
theorem claim_C10_key_from_vec_witness :
    macaroonKeyFromVec [1] = .panicked (str2b "invalid key size") ∧
    decrypt_key (fun _ _ _ => some (List.replicate 33 5)) (List.replicate 32 0)
      (List.replicate 45 0) = .ok ((List.replicate 33 5).take KEY_BYTES) :=
  ⟨(claim_C10_key_from_vec [1] (fun _ _ _ => some (List.replicate 33 5))
      (List.replicate 32 0) (List.replicate 45 0) (List.replicate 33 5)
      (by decide) (by decide)).1 (by decide),
   (claim_C10_key_from_vec [1] (fun _ _ _ => some (List.replicate 33 5))
      (List.replicate 32 0) (List.replicate 45 0) (List.replicate 33 5)
      (by decide) (by decide)).2.2.2 (by decide)⟩

/-- C3 (code bug evidence): `decrypt_key` does not satisfy the spec's
error contract.  At a 45-byte input whose authentication tag does not verify
the code panics (`.expect` in `DefaultEncryptor::decrypt`) instead of
returning a `CryptoError`; an over-length recovered plaintext is silently
truncated to 32 bytes instead of failing; an under-length recovered
plaintext panics in the `From<Vec<u8>>` conversion instead of failing. -/
theorem claim_C3_decrypt_contract_broken :
    (decrypt_key (fun _ _ _ => none) (List.replicate 32 0)
      (List.replicate 45 0) =
      .panicked (str2b "decrypt_macaroon_key: could not decrypt")) ∧
    (decrypt_key (fun _ _ _ => some (List.replicate 40 1)) (List.replicate 32 0)
      (List.replicate 60 0) = .ok (List.replicate 32 1)) ∧
    (decrypt_key (fun _ _ _ => some (List.replicate 17 1)) (List.replicate 32 0)
      (List.replicate 45 0) = .panicked (str2b "invalid key size")) := by
  decide

/-! ## Deserialization dispatch (claim C8) -/

/-- C8 counterexample: the byte `0x67` (ASCII `g`) is in the class
`[A-Za-z0-9+/_-]` that the claim says selects the V1 parser, but
`Macaroon::deserialize_binary` rejects it: the code's V1 class is only
`'a'..='f' | 'A'..='Z' | '0'..='9'`. -/
theorem claim_C8_counterexample :
    Macaroon.deserialize_binary [] [103] =
      .error (.DeserializationError
        (str2b "unknown macaroon serialization format")) := by
  decide

/-- C8 amended: `deserialize` dispatches a leading `{` to V2J and otherwise
base64-decodes (flexibly) and dispatches the binary token;
`deserialize_binary` dispatches a leading `0x02` to V2, a leading byte in
`[a-f]`, `[A-Z]` or `[0-9]` to V1, and rejects every other leading byte
(including `g`–`z`, `+`, `/`, `_`, `-`) with a `DeserializationError`. -/
theorem claim_C8_dispatch_amended
    (jsonParse : ByteString → Except MacaroonError v2json.Serialization)
    (decUrl decStd : ByteString → Except MacaroonError ByteString)
    (rnd : ByteString) (b : Nat) (rest : ByteString) :
    (b = 2 →
      Macaroon.deserialize_binary rnd (b :: rest) =
        v2.deserialize rnd (b :: rest) >>= Macaroon.validate) ∧
    ((97 ≤ b ∧ b ≤ 102) ∨ (65 ≤ b ∧ b ≤ 90) ∨ (48 ≤ b ∧ b ≤ 57) →
      Macaroon.deserialize_binary rnd (b :: rest) =
        v1.deserialize rnd (b :: rest) >>= Macaroon.validate) ∧
    (b ≠ 2 → ¬((97 ≤ b ∧ b ≤ 102) ∨ (65 ≤ b ∧ b ≤ 90) ∨ (48 ≤ b ∧ b ≤ 57)) →
      Macaroon.deserialize_binary rnd (b :: rest) =
        .error (.DeserializationError
          (str2b "unknown macaroon serialization format"))) ∧
    (b = 123 →
      Macaroon.deserialize jsonParse decUrl decStd rnd (b :: rest) =
        v2json.deserialize jsonParse decUrl rnd (b :: rest) >>=
          Macaroon.validate) ∧
    (b ≠ 123 →
      Macaroon.deserialize jsonParse decUrl decStd rnd (b :: rest) =
        (match base64_decode_flexible decUrl decStd (b :: rest) with
         | .error e => .error e
         | .ok binary => Macaroon.deserialize_binary rnd binary) >>=
          Macaroon.validate) := by
  refine ⟨fun h2 => ?_, fun hcls => ?_, fun h2 hcls => ?_, fun hj => ?_,
    fun hj => ?_⟩
  · simp [Macaroon.deserialize_binary, h2]
  · have h2 : b ≠ 2 := by rcases hcls with h | h | h <;> omega
    simp only [Macaroon.deserialize_binary, v1LeadingByte, decide_eq_true_eq,
      Bool.or_eq_true, decide_eq_true_iff]
    rw [if_neg h2, if_pos (by tauto)]
  · simp only [Macaroon.deserialize_binary, v1LeadingByte, decide_eq_true_eq,
      Bool.or_eq_true, decide_eq_true_iff]
    rw [if_neg h2, if_neg (by tauto)]
    rfl
  · subst hj
    simp [Macaroon.deserialize]
  · simp [Macaroon.deserialize, hj]

/-- Witness for C8 amended: a leading `+` (`0x2b`), also in the claimed
class, is rejected. -/
theorem claim_C8_dispatch_amended_witness :
    Macaroon.deserialize_binary [] [43] =
      .error (.DeserializationError
        (str2b "unknown macaroon serialization format")) :=
  (claim_C8_dispatch_amended (fun _ => .error .InvalidSignature)
    (fun _ => .error .InvalidSignature) (fun _ => .error .InvalidSignature)
    [] 43 []).2.2.1 (by decide) (by decide)

/-! ## V2J field pairs (claim C9) -/

/-- C9 counterexample: a V2J token whose caveat carries both `i` and `i64`
deserializes successfully (the un-suffixed member wins); the claim says any
pair with both members present is a hard error. -/
theorem claim_C9_counterexample :
    v2json.from_json (fun b => .ok b) []
      { v := 2, i := some [97], i64 := none, l := none, l64 := none,
        c := [{ i := some [98], i64 := some [99], l := none, l64 := none,
                v := none, v64 := none }],
        s := some (List.replicate 32 0), s64 := none } =
      .ok { identifier := [97], location := none,
            signature := List.replicate 32 0,
            caveats := [.FirstParty [98]] } := by
  decide

/-- The caveat loop of `from_json` never looks at a `64`-suffixed caveat
field whose un-suffixed partner is present. -/
theorem processJsonCaveats_scrub
    (b64dUrl : ByteString → Except MacaroonError ByteString) :
    ∀ (cs : List v2json.JsonCaveat) (builder : MacaroonBuilder),
      v2json.processJsonCaveats b64dUrl cs builder =
        v2json.processJsonCaveats b64dUrl (cs.map v2json.JsonCaveat.scrub)
          builder := by
  intro cs
  induction cs with
  | nil => intro builder; rfl
  | cons c rest ih =>
    intro builder
    simp only [List.map_cons, v2json.processJsonCaveats]
    cases hi : c.i with
    | some id =>
      cases hl : c.l with
      | some location =>
        cases hv : c.v with
        | some vid => simp [v2json.JsonCaveat.scrub, hi, hl, hv, ih]
        | none => simp [v2json.JsonCaveat.scrub, hi, hl, hv, ih]
      | none =>
        cases hv : c.v with
        | some vid => simp [v2json.JsonCaveat.scrub, hi, hl, hv, ih]
        | none => simp [v2json.JsonCaveat.scrub, hi, hl, hv, ih]
    | none =>
      cases hi64 : c.i64 with
      | some id64 =>
        cases hl : c.l with
        | some location =>
          cases hv : c.v with
          | some vid => simp [v2json.JsonCaveat.scrub, hi, hi64, hl, hv, ih]
          | none => simp [v2json.JsonCaveat.scrub, hi, hi64, hl, hv, ih]
        | none =>
          cases hv : c.v with
          | some vid => simp [v2json.JsonCaveat.scrub, hi, hi64, hl, hv, ih]
          | none => simp [v2json.JsonCaveat.scrub, hi, hi64, hl, hv, ih]
      | none => simp [v2json.JsonCaveat.scrub, hi, hi64]

/-- C9 amended: at the macaroon level the pair rule holds — presence of both
`i`/`i64`, both `l`/`l64`, or both `s`/`s64` is a hard
`DeserializationError` — but at the caveat level presence of both members of
`i`/`i64`, `l`/`l64` or `v`/`v64` is not an error: the un-suffixed member
takes precedence and the suffixed one is ignored. -/
theorem claim_C9_pairs_amended
    (b64dUrl : ByteString → Except MacaroonError ByteString)
    (rnd : ByteString) (ser : v2json.Serialization) :
    (ser.i.isSome = true → ser.i64.isSome = true →
      v2json.from_json b64dUrl rnd ser =
        .error (.DeserializationError (str2b "Found i and i64 fields"))) ∧
    (¬(ser.i.isSome = true ∧ ser.i64.isSome = true) →
      ser.l.isSome = true → ser.l64.isSome = true →
      v2json.from_json b64dUrl rnd ser =
        .error (.DeserializationError (str2b "Found l and l64 fields"))) ∧
    (¬(ser.i.isSome = true ∧ ser.i64.isSome = true) →
      ¬(ser.l.isSome = true ∧ ser.l64.isSome = true) →
      ser.s.isSome = true → ser.s64.isSome = true →
      v2json.from_json b64dUrl rnd ser =
        .error (.DeserializationError (str2b "Found s and s64 fields"))) ∧
    (v2json.from_json b64dUrl rnd ser =
      v2json.from_json b64dUrl rnd ser.scrubCaveats) := by
  refine ⟨fun h1 h2 => ?_, fun hn h1 h2 => ?_, fun hn1 hn2 h1 h2 => ?_, ?_⟩
  · simp [v2json.from_json, h1, h2]
  · simp [v2json.from_json, hn, h1, h2]
  · simp [v2json.from_json, hn1, hn2, h1, h2]
  · simp only [v2json.from_json, v2json.Serialization.scrubCaveats]
    by_cases p1 : ser.i.isSome = true ∧ ser.i64.isSome = true
    · simp [p1]
    · simp only [if_neg p1]
      by_cases p2 : ser.l.isSome = true ∧ ser.l64.isSome = true
      · simp [p2]
      · simp only [if_neg p2]
        by_cases p3 : ser.s.isSome = true ∧ ser.s64.isSome = true
        · simp [p3]
        · simp only [if_neg p3]
          cases hid : (match ser.i with
            | some id => Except.ok id
            | none =>
              match ser.i64 with
              | some id => Except.ok id
              | none => Except.error (MacaroonError.DeserializationError
                  (str2b "No identifier found")) :
            Except MacaroonError ByteString) with
          | error e => simp [hid]
          | ok identifier =>
            simp only [hid]
            cases hloc : (match ser.l with
              | some location =>
                Except.ok (((MacaroonBuilder.new rnd).set_identifier
                  identifier).set_location location)
              | none =>
                match ser.l64 with
                | some loc64 =>
                  match b64dUrl loc64 with
                  | Except.error e => Except.error e
                  | Except.ok bytes =>
                    match rustFromUtf8 bytes with
                    | Except.error e => Except.error e
                    | Except.ok location =>
                      Except.ok (((MacaroonBuilder.new rnd).set_identifier
                        identifier).set_location location)
                | none =>
                  Except.ok ((MacaroonBuilder.new rnd).set_identifier identifier) :
              Except MacaroonError MacaroonBuilder) with
            | error e => simp [hloc]
            | ok builder1 =>
              simp only [hloc]
              cases hsig : (match ser.s with
                | some sig => Except.ok sig
                | none =>
                  match ser.s64 with
                  | some sig64 => b64dUrl sig64
                  | none => Except.error (MacaroonError.DeserializationError
                      (str2b "No signature found")) :
                Except MacaroonError ByteString) with
              | error e => simp [hsig]
              | ok raw_sig =>
                simp only [hsig]
                by_cases plen : raw_sig.length ≠ 32
                · simp [plen]
                · simp only [if_neg plen]
                  rw [processJsonCaveats_scrub]

/-- Witness for C9 amended: both `i` and `i64` present at the macaroon level
is a hard error. -/
theorem claim_C9_pairs_amended_witness :
    v2json.from_json (fun b => .ok b) []
      { v := 2, i := some [97], i64 := some [98], l := none, l64 := none,
        c := [], s := some (List.replicate 32 0), s64 := none } =
      .error (.DeserializationError (str2b "Found i and i64 fields")) :=
  (claim_C9_pairs_amended (fun b => .ok b) []
    { v := 2, i := some [97], i64 := some [98], l := none, l64 := none,
      c := [], s := some (List.replicate 32 0), s64 := none }).1
    (by decide) (by decide)

/-! ## Verifier (claims C5, C4)

The following lemmas formalize the discharge-consumption mechanism of
`Verifier::verify_with_sig`: the working map only ever shrinks (the sublist
refinement carried by the verifier's result type), its keys are unique, a
removed key is gone, an entry whose key is never consumed is simply carried
through unchanged, and the recursion can never produce a `DischargeNotUsed`
error itself. -/


theorem verifyCaveats_no_DNU (hmac : ByteString → ByteString → ByteString)
    (dec : ByteString → ByteString → Except MacaroonError ByteString)
    (V : Verifier) (root_sig : ByteString)
    (hdec : ∀ s v e, dec s v = .error e → e ≠ .DischargeNotUsed) :
    ∀ (sig : ByteString) (cs : List Caveat) (ds : DischargeSet)
      (e : MacaroonError),
      verifyCaveats hmac dec V root_sig sig cs ds = .error e →
        e ≠ .DischargeNotUsed := by
  intro sig cs ds
  induction sig, cs, ds using verifyCaveats.induct hmac dec V root_sig with
  | motive2 m key ds => exact (∀ (e : MacaroonError),
      verify_with_sig hmac dec V root_sig m key ds = Except.error e →
        e ≠ MacaroonError.DischargeNotUsed)
  | case1 sig ds =>
    intro e h
    simp [verifyCaveats] at h
  | case2 sig ds rest a hsat ih =>
    intro e h
    simp only [verifyCaveats, hsat, if_pos] at h
    exact ih e h
  | case3 sig ds rest a hsat =>
    intro e h
    simp only [verifyCaveats] at h
    rw [if_neg (by simpa using hsat)] at h
    simp at h
    subst h
    simp
  | case4 sig ds rest a a1 a2 e0 hdec0 =>
    intro e h
    simp only [verifyCaveats, hdec0] at h
    cases h
    exact hdec sig a1 e0 hdec0
  | case5 sig ds rest a a1 a2 ck hdec0 hrem =>
    intro e h
    simp only [verifyCaveats, hdec0, hrem] at h
    cases h
    simp
  | case6 sig ds rest a a1 a2 ck hdec0 dm ds1 hsub1 hlen1 hrem e0 hvws ih =>
    intro e h
    simp only [verifyCaveats, hdec0, hrem, hvws] at h
    cases h
    exact ih e0 hvws
  | case7 sig ds rest a a1 a2 ck hdec0 dm ds1 hsub1 hlen1 hrem ds2 hsub2 hvws e0 hloop ih2 ih1 =>
    intro e h
    simp only [verifyCaveats, hdec0, hrem, hvws, hloop] at h
    cases h
    exact ih1 e0 hloop
  | case8 sig ds rest a a1 a2 ck hdec0 dm ds1 hsub1 hlen1 hrem ds2 hsub2 hvws sig' ds3 hsub3 hloop ih2 ih1 =>
    intro e h
    simp only [verifyCaveats, hdec0, hrem, hvws, hloop] at h
    simp at h
  | case9 m key ds e0 hcl ih =>
    intro e h
    simp only [verify_with_sig, hcl] at h
    cases h
    exact ih e0 hcl
  | case10 m key ds ds3 hsub3 hcl ih =>
    intro e h
    simp only [verify_with_sig, hcl] at h
    simp at h
  | case11 m key ds sig' ds3 hsub3 hcl hne hbound ih =>
    intro e h
    simp only [verify_with_sig, hcl, if_neg hne, if_pos hbound] at h
    simp at h
  | case12 m key ds sig' ds3 hsub3 hcl hne hbound ih =>
    intro e h
    simp only [verify_with_sig, hcl, if_neg hne, if_neg hbound] at h
    simp at h
    subst h
    simp

theorem verify_with_sig_no_DNU (hmac : ByteString → ByteString → ByteString)
    (dec : ByteString → ByteString → Except MacaroonError ByteString)
    (V : Verifier) (root_sig : ByteString)
    (hdec : ∀ s v e, dec s v = .error e → e ≠ .DischargeNotUsed)
    (m : Macaroon) (key : ByteString) (ds : DischargeSet) (e : MacaroonError)
    (h : verify_with_sig hmac dec V root_sig m key ds = .error e) :
    e ≠ .DischargeNotUsed := by
  cases hcl : verifyCaveats hmac dec V root_sig (hmac key m.identifier)
      m.caveats ds with
  | error e0 =>
    simp only [verify_with_sig, hcl] at h
    injection h with h1
    subst h1
    exact verifyCaveats_no_DNU hmac dec V root_sig hdec _ _ _ _ hcl
  | ok pr =>
    obtain ⟨sig', ds', hsub⟩ := pr
    simp only [verify_with_sig, hcl] at h
    by_cases h1 : root_sig = sig'
    · simp [h1] at h
    · rw [if_neg h1] at h
      by_cases h2 : hmac2 hmac zeroKey root_sig sig' = m.signature
      · rw [if_pos h2] at h
        simp at h
      · rw [if_neg h2] at h
        injection h with h3
        subst h3
        simp


theorem dsRemove_append (k : ByteString) (t : DischargeSet) :
    ∀ (ds : DischargeSet) (m : Macaroon)
      (r : { r : DischargeSet // r.Sublist ds ∧ r.length + 1 = ds.length }),
      dsRemove k ds = some (m, r) →
      ∃ r' : { r' : DischargeSet //
          r'.Sublist (ds ++ t) ∧ r'.length + 1 = (ds ++ t).length },
        dsRemove k (ds ++ t) = some (m, r') ∧ r'.val = r.val ++ t := by
  intro ds
  induction ds with
  | nil => intro m r h; simp [dsRemove] at h
  | cons p rest ih =>
    intro m r h
    obtain ⟨k', v'⟩ := p
    by_cases hk : k' = k
    · subst hk
      simp only [dsRemove, if_true, eq_self_iff_true, Option.some.injEq,
        Prod.mk.injEq] at h
      obtain ⟨rfl, rfl⟩ := h
      refine ⟨⟨rest ++ t, List.sublist_cons_self (k', v') (rest ++ t), by simp⟩,
        ?_, by simp⟩
      simp [List.cons_append, dsRemove]
    · simp only [List.cons_append, dsRemove, if_neg hk] at h ⊢
      split at h
      · cases h
      · rename_i m1 rv hsub hlen heq
        simp only [Option.some.injEq, Prod.mk.injEq] at h
        obtain ⟨rfl, rfl⟩ := h
        obtain ⟨r1, hrec1, hval1⟩ := ih m1 ⟨rv, hsub, hlen⟩ heq
        obtain ⟨r1v, hr1⟩ := r1
        split
        · rename_i heq2
          simp only [List.append_eq] at heq2
          rw [hrec1] at heq2
          cases heq2
        · rename_i m2 rv2 hsub2 hlen2 heq2
          simp only [List.append_eq] at heq2
          rw [hrec1] at heq2
          simp only [Option.some.injEq, Prod.mk.injEq] at heq2
          obtain ⟨rfl, h3⟩ := heq2
          refine ⟨⟨(k', v') :: rv2, hsub2.cons₂ (k', v'), by simpa using hlen2⟩,
            rfl, ?_⟩
          have h3v : rv2 = r1v := congrArg Subtype.val h3.symm
          subst h3v
          simp only at hval1
          simp [hval1]


theorem verifyCaveats_frame (hmac : ByteString → ByteString → ByteString)
    (dec : ByteString → ByteString → Except MacaroonError ByteString)
    (V : Verifier) (root_sig : ByteString) (t : DischargeSet) :
    ∀ (sig : ByteString) (cs : List Caveat) (ds : DischargeSet)
      (sig' : ByteString) (r : { r : DischargeSet // r.Sublist ds }),
      verifyCaveats hmac dec V root_sig sig cs ds = .ok (sig', r) →
      ∃ r' : { r' : DischargeSet // r'.Sublist (ds ++ t) },
        verifyCaveats hmac dec V root_sig sig cs (ds ++ t) = .ok (sig', r') ∧
          r'.val = r.val ++ t := by
  intro sig cs ds
  induction sig, cs, ds using verifyCaveats.induct hmac dec V root_sig with
  | motive2 m key ds => exact (∀ (r : { r : DischargeSet // r.Sublist ds }),
      verify_with_sig hmac dec V root_sig m key ds = Except.ok r →
      ∃ r' : { r' : DischargeSet // r'.Sublist (ds ++ t) },
        verify_with_sig hmac dec V root_sig m key (ds ++ t) = Except.ok r' ∧
          r'.val = r.val ++ t)
  | case1 sig ds =>
    intro sig' r h
    simp only [verifyCaveats, Except.ok.injEq, Prod.mk.injEq] at h
    obtain ⟨rfl, rfl⟩ := h
    exact ⟨⟨ds ++ t, List.Sublist.refl _⟩, by simp [verifyCaveats], rfl⟩
  | case2 sig ds rest a hsat ih =>
    intro sig' r h
    simp only [verifyCaveats] at h
    rw [if_pos (by simpa using hsat)] at h
    obtain ⟨r', hr', hval⟩ := ih sig' r h
    refine ⟨r', ?_, hval⟩
    simp only [verifyCaveats]
    rw [if_pos (by simpa using hsat)]
    exact hr'
  | case3 sig ds rest a hsat =>
    intro sig' r h
    simp only [verifyCaveats] at h
    rw [if_neg (by simpa using hsat)] at h
    cases h
  | case4 sig ds rest a a1 a2 e0 hdec0 =>
    intro sig' r h
    simp only [verifyCaveats, hdec0] at h
    simp at h
  | case5 sig ds rest a a1 a2 ck hdec0 hrem =>
    intro sig' r h
    simp only [verifyCaveats, hdec0, hrem] at h
    simp at h
  | case6 sig ds rest a a1 a2 ck hdec0 dm ds1 hsub1 hlen1 hrem e0 hvws ih =>
    intro sig' r h
    simp only [verifyCaveats, hdec0, hrem, hvws] at h
    simp at h
  | case7 sig ds rest a a1 a2 ck hdec0 dm ds1 hsub1 hlen1 hrem ds2 hsub2 hvws e0 hloop ih2 ih1 =>
    intro sig' r h
    simp only [verifyCaveats, hdec0, hrem, hvws, hloop] at h
    simp at h
  | case8 sig ds rest a a1 a2 ck hdec0 dm ds1 hsub1 hlen1 hrem ds2 hsub2 hvws sigf ds3 hsub3 hloop ih2 ih1 =>
    intro sig' r h
    simp only [verifyCaveats, hdec0, hrem, hvws, hloop, Except.ok.injEq,
      Prod.mk.injEq] at h
    obtain ⟨rfl, rfl⟩ := h
    -- frame the discharge-set removal
    obtain ⟨r1, hrem', hval1⟩ := dsRemove_append a t ds dm ⟨ds1, hsub1, hlen1⟩ hrem
    -- frame the recursive discharge verification
    obtain ⟨r2, hvws', hval2⟩ := ih2 ⟨ds2, hsub2⟩ hvws
    -- frame the rest of the loop
    obtain ⟨r3, hloop', hval3⟩ := ih1 sigf ⟨ds3, hsub3⟩ hloop
    obtain ⟨r1v, hr1⟩ := r1
    simp only at hval1
    subst hval1
    obtain ⟨r2v, hr2⟩ := r2
    simp only at hval2
    subst hval2
    obtain ⟨r3v, hr3⟩ := r3
    simp only at hval3
    subst hval3
    simp only [verifyCaveats, hdec0]
    split
    · rename_i heqr
      rw [hrem'] at heqr
      cases heqr
    · rename_i dmx ds1x hsub1x hlen1x heqr
      rw [hrem'] at heqr
      simp only [Option.some.injEq, Prod.mk.injEq] at heqr
      obtain ⟨rfl, heq1⟩ := heqr
      obtain rfl : ds1x = ds1 ++ t := congrArg Subtype.val heq1.symm
      split
      · rename_i e heqv
        rw [hvws'] at heqv
        cases heqv
      · rename_i ds2x hsub2x heqv
        rw [hvws'] at heqv
        simp only [Except.ok.injEq] at heqv
        obtain rfl : ds2x = ds2 ++ t := congrArg Subtype.val heqv.symm
        split
        · rename_i e heql
          rw [hloop'] at heql
          cases heql
        · rename_i sigx ds3x hsub3x heql
          rw [hloop'] at heql
          simp only [Except.ok.injEq, Prod.mk.injEq] at heql
          obtain ⟨rfl, heq3⟩ := heql
          obtain rfl : ds3x = ds3 ++ t := congrArg Subtype.val heq3.symm
          exact ⟨_, rfl, rfl⟩
  | case9 m key ds e0 hcl ih =>
    intro r h
    simp only [verify_with_sig, hcl] at h
    simp at h
  | case10 m key ds ds3 hsub3 hcl ih =>
    intro r h
    simp only [verify_with_sig, hcl, if_true, Except.ok.injEq] at h
    subst h
    obtain ⟨r', hcl', hval⟩ := ih root_sig ⟨ds3, hsub3⟩ hcl
    obtain ⟨r'v, hr'⟩ := r'
    refine ⟨⟨r'v, hr'⟩, ?_, hval⟩
    simp only [verify_with_sig, hcl']
    simp
  | case11 m key ds sigf ds3 hsub3 hcl hne hbound ih =>
    intro r h
    simp only [verify_with_sig, hcl] at h
    rw [if_neg hne, if_pos hbound] at h
    simp only [Except.ok.injEq] at h
    subst h
    obtain ⟨r', hcl', hval⟩ := ih sigf ⟨ds3, hsub3⟩ hcl
    obtain ⟨r'v, hr'⟩ := r'
    refine ⟨⟨r'v, hr'⟩, ?_, hval⟩
    simp only [verify_with_sig, hcl']
    rw [if_neg hne, if_pos hbound]
  | case12 m key ds sigf ds3 hsub3 hcl hne hbound ih =>
    intro r h
    simp only [verify_with_sig, hcl] at h
    rw [if_neg hne, if_neg hbound] at h
    cases h


theorem verify_with_sig_frame (hmac : ByteString → ByteString → ByteString)
    (dec : ByteString → ByteString → Except MacaroonError ByteString)
    (V : Verifier) (root_sig : ByteString) (t : DischargeSet)
    (m : Macaroon) (key : ByteString) (ds : DischargeSet)
    (r : { r : DischargeSet // r.Sublist ds })
    (h : verify_with_sig hmac dec V root_sig m key ds = .ok r) :
    ∃ r' : { r' : DischargeSet // r'.Sublist (ds ++ t) },
      verify_with_sig hmac dec V root_sig m key (ds ++ t) = .ok r' ∧
        r'.val = r.val ++ t := by
  cases hcl : verifyCaveats hmac dec V root_sig (hmac key m.identifier)
      m.caveats ds with
  | error e =>
    simp only [verify_with_sig, hcl] at h
    simp at h
  | ok pr =>
    obtain ⟨sig1, r1⟩ := pr
    obtain ⟨r1v, hr1⟩ := r1
    obtain ⟨r2, hcl', hval⟩ :=
      verifyCaveats_frame hmac dec V root_sig t _ _ ds sig1 ⟨r1v, hr1⟩ hcl
    obtain ⟨r2v, hr2⟩ := r2
    simp only [verify_with_sig, hcl] at h
    by_cases h1 : root_sig = sig1
    · subst h1
      rw [if_pos rfl] at h
      simp only [Except.ok.injEq] at h
      subst h
      refine ⟨⟨r2v, hr2⟩, ?_, by simpa using hval⟩
      simp only [verify_with_sig, hcl']
      simp
    · rw [if_neg h1] at h
      by_cases h2 : hmac2 hmac zeroKey root_sig sig1 = m.signature
      · rw [if_pos h2] at h
        simp only [Except.ok.injEq] at h
        subst h
        refine ⟨⟨r2v, hr2⟩, ?_, by simpa using hval⟩
        simp only [verify_with_sig, hcl']
        rw [if_neg h1, if_pos h2]
      · rw [if_neg h2] at h
        cases h

theorem dsInsert_of_not_mem (k : ByteString) (v : Macaroon) :
    ∀ ds : DischargeSet, k ∉ dsKeys ds → dsInsert k v ds = ds ++ [(k, v)] := by
  intro ds
  induction ds with
  | nil => intro _; rfl
  | cons p rest ih =>
    intro h
    obtain ⟨k', v'⟩ := p
    simp only [dsKeys, List.map_cons, List.mem_cons, not_or] at h
    simp only [dsInsert, if_neg (fun hh : k' = k => h.1 hh.symm), List.cons_append,
      List.cons.injEq, true_and]
    exact ih (by simpa [dsKeys] using h.2)

theorem dsKeys_dsInsert (k : ByteString) (v : Macaroon) :
    ∀ ds : DischargeSet, dsKeys (dsInsert k v ds) =
      if k ∈ dsKeys ds then dsKeys ds else dsKeys ds ++ [k] := by
  intro ds
  induction ds with
  | nil => simp [dsInsert, dsKeys]
  | cons p rest ih =>
    obtain ⟨k', v'⟩ := p
    by_cases hk : k' = k
    · subst hk
      simp [dsInsert, dsKeys]
    · simp only [dsInsert, if_neg hk, dsKeys, List.map_cons]
      by_cases hmem : k ∈ dsKeys rest
      · simp only [dsKeys] at ih hmem
        simp [ih, hmem, Ne.symm hk]
      · simp only [dsKeys] at ih hmem
        simp [ih, hmem, Ne.symm hk]

theorem dsKeys_nodup_dsInsert (k : ByteString) (v : Macaroon)
    (ds : DischargeSet) (h : (dsKeys ds).Nodup) :
    (dsKeys (dsInsert k v ds)).Nodup := by
  rw [dsKeys_dsInsert]
  by_cases hmem : k ∈ dsKeys ds
  · simpa [hmem] using h
  · rw [if_neg hmem]
    exact (@List.nodup_middle _ k (dsKeys ds) []).mpr
      (by simpa using ⟨hmem, h⟩)

theorem buildDischargeSet_keys_nodup (dl : List Macaroon) :
    (dsKeys (buildDischargeSet dl)).Nodup := by
  suffices h : ∀ (ds : DischargeSet), (dsKeys ds).Nodup →
      (dsKeys (dl.foldl (fun ds d => dsInsert d.identifier d ds) ds)).Nodup by
    exact h [] (by simp [dsKeys])
  induction dl with
  | nil => intro ds h; exact h
  | cons d rest ih =>
    intro ds h
    exact ih _ (dsKeys_nodup_dsInsert d.identifier d ds h)

theorem dsRemove_key_gone (i : ByteString) :
    ∀ (ds : DischargeSet) (m : Macaroon)
      (r : { r : DischargeSet // r.Sublist ds ∧ r.length + 1 = ds.length }),
      (dsKeys ds).Nodup → dsRemove i ds = some (m, r) → i ∉ dsKeys r.val := by
  intro ds
  induction ds with
  | nil => intro m r _ h; simp [dsRemove] at h
  | cons p rest ih =>
    intro m r hnd h
    obtain ⟨k', v'⟩ := p
    by_cases hk : k' = i
    · subst hk
      simp only [dsRemove, if_true, eq_self_iff_true, Option.some.injEq,
        Prod.mk.injEq] at h
      obtain ⟨rfl, rfl⟩ := h
      simp only [dsKeys, List.map_cons, List.nodup_cons] at hnd
      simpa [dsKeys] using hnd.1
    · simp only [dsRemove, if_neg hk] at h
      split at h
      · cases h
      · rename_i m1 rv hsub hlen heq
        simp only [Option.some.injEq, Prod.mk.injEq] at h
        obtain ⟨rfl, rfl⟩ := h
        simp only [dsKeys, List.map_cons, List.nodup_cons] at hnd
        have hrec := ih m1 ⟨rv, hsub, hlen⟩ hnd.2 heq
        simp only [dsKeys, List.map_cons, List.mem_cons, not_or]
        exact ⟨fun hh => hk hh.symm, by simpa [dsKeys] using hrec⟩

theorem buildDischargeSet_append (dl : List Macaroon) (x : Macaroon)
    (hfresh : x.identifier ∉ dsKeys (buildDischargeSet dl)) :
    buildDischargeSet (dl ++ [x]) =
      buildDischargeSet dl ++ [(x.identifier, x)] := by
  simp only [buildDischargeSet, List.foldl_append, List.foldl_cons,
    List.foldl_nil]
  exact dsInsert_of_not_mem x.identifier x _ hfresh



theorem verify_DNU_iff (hmac : ByteString → ByteString → ByteString)
    (dec : ByteString → ByteString → Except MacaroonError ByteString)
    (V : Verifier) (m : Macaroon) (key : ByteString)
    (discharges : List Macaroon)
    (hdec : ∀ s v e, dec s v = .error e → e ≠ .DischargeNotUsed) :
    V.verify hmac dec m key discharges = .error .DischargeNotUsed ↔
      ∃ r, verify_with_sig hmac dec V m.signature m key
          (buildDischargeSet discharges) = .ok r ∧ r.val ≠ [] := by
  constructor
  · intro h
    cases hv : verify_with_sig hmac dec V m.signature m key
        (buildDischargeSet discharges) with
    | error e =>
      simp only [Verifier.verify, hv] at h
      injection h with h1
      exact absurd h1 (verify_with_sig_no_DNU hmac dec V m.signature hdec
        m key _ e hv)
    | ok r =>
      obtain ⟨rv, hr⟩ := r
      simp only [Verifier.verify, hv] at h
      by_cases he : rv.isEmpty
      · rw [if_pos he] at h
        cases h
      · refine ⟨⟨rv, hr⟩, rfl, ?_⟩
        simpa [List.isEmpty_iff] using he
  · rintro ⟨r, hv, hne⟩
    obtain ⟨rv, hr⟩ := r
    simp only at hne
    simp only [Verifier.verify, hv]
    rw [if_neg (by simpa [List.isEmpty_iff] using hne)]

theorem verify_ok_elim (hmac : ByteString → ByteString → ByteString)
    (dec : ByteString → ByteString → Except MacaroonError ByteString)
    (V : Verifier) (m : Macaroon) (key : ByteString)
    (discharges : List Macaroon)
    (hok : V.verify hmac dec m key discharges = .ok ()) :
    ∃ r, verify_with_sig hmac dec V m.signature m key
        (buildDischargeSet discharges) = .ok r ∧ r.val = [] := by
  cases hv : verify_with_sig hmac dec V m.signature m key
      (buildDischargeSet discharges) with
  | error e =>
    simp only [Verifier.verify, hv] at hok
    cases hok
  | ok r =>
    obtain ⟨rv, hr⟩ := r
    simp only [Verifier.verify, hv] at hok
    by_cases he : rv.isEmpty
    · exact ⟨⟨rv, hr⟩, rfl, by simpa [List.isEmpty_iff] using he⟩
    · rw [if_neg he] at hok
      cases hok

theorem claim_C5_discharge_not_used
    (hmac : ByteString → ByteString → ByteString)
    (dec : ByteString → ByteString → Except MacaroonError ByteString)
    (V : Verifier) (m : Macaroon) (key : ByteString)
    (discharges : List Macaroon)
    (hdec : ∀ s v e, dec s v = .error e → e ≠ .DischargeNotUsed) :
    (V.verify hmac dec m key discharges = .error .DischargeNotUsed ↔
      ∃ r, verify_with_sig hmac dec V m.signature m key
          (buildDischargeSet discharges) = .ok r ∧ r.val ≠ []) ∧
    (∀ x : Macaroon,
      V.verify hmac dec m key discharges = .ok () →
      x.identifier ∉ dsKeys (buildDischargeSet discharges) →
      V.verify hmac dec m key (discharges ++ [x]) =
        .error .DischargeNotUsed) := by
  refine ⟨verify_DNU_iff hmac dec V m key discharges hdec, ?_⟩
  intro x hok hfresh
  obtain ⟨r, hv, hval⟩ := verify_ok_elim hmac dec V m key discharges hok
  obtain ⟨rv, hr⟩ := r
  simp only at hval
  subst hval
  obtain ⟨r', hv', hval'⟩ := verify_with_sig_frame hmac dec V m.signature
    [(x.identifier, x)] m key (buildDischargeSet discharges) ⟨[], hr⟩ hv
  rw [verify_DNU_iff hmac dec V m key (discharges ++ [x]) hdec]
  rw [buildDischargeSet_append discharges x hfresh]
  refine ⟨r', hv', ?_⟩
  simp only at hval'
  simp [hval']

theorem claim_C4_cycle_terminates
    (hmac : ByteString → ByteString → ByteString)
    (dec : ByteString → ByteString → Except MacaroonError ByteString)
    (V : Verifier) (key : ByteString) (p d : Macaroon)
    (i vid vidd loc locd ck ck2 : ByteString)
    (hp : p.caveats = [.ThirdParty i vid loc])
    (hdid : d.identifier = i)
    (hdcav : d.caveats = [.ThirdParty i vidd locd])
    (hdec1 : dec (hmac key p.identifier) vid = .ok ck)
    (hdec2 : dec (hmac ck i) vidd = .ok ck2) :
    (∀ (root_sig : ByteString) (mm : Macaroon) (mkey : ByteString)
        (ds : DischargeSet) (r : { r : DischargeSet // r.Sublist ds }),
      verify_with_sig hmac dec V root_sig mm mkey ds = .ok r →
        r.val.Sublist ds) ∧
    (∀ dl : List Macaroon, (dsKeys (buildDischargeSet dl)).Nodup) ∧
    (∀ (j : ByteString) (ds : DischargeSet) (mm : Macaroon)
        (r : { r : DischargeSet // r.Sublist ds ∧ r.length + 1 = ds.length }),
      (dsKeys ds).Nodup → dsRemove j ds = some (mm, r) → j ∉ dsKeys r.val) ∧
    V.verify hmac dec p key [d] =
      .error (.CaveatNotSatisfied noDischargeMsg) := by
  refine ⟨fun _ _ _ _ r _ => r.property, buildDischargeSet_keys_nodup,
    dsRemove_key_gone, ?_⟩
  have hinner : verify_with_sig hmac dec V p.signature d ck [] =
      .error (.CaveatNotSatisfied noDischargeMsg) := by
    have h0 : verifyCaveats hmac dec V p.signature (hmac ck d.identifier)
        d.caveats [] = .error (.CaveatNotSatisfied noDischargeMsg) := by
      rw [hdid, hdcav]
      simp only [verifyCaveats, hdec2, dsRemove]
    simp only [verify_with_sig, h0]
  have hbuild : buildDischargeSet [d] = [(i, d)] := by
    simp [buildDischargeSet, dsInsert, hdid]
  have houter : verifyCaveats hmac dec V p.signature (hmac key p.identifier)
      p.caveats (buildDischargeSet [d]) =
      .error (.CaveatNotSatisfied noDischargeMsg) := by
    rw [hbuild, hp]
    simp only [verifyCaveats, hdec1]
    split
    · rename_i heq
      simp [dsRemove] at heq
    · rename_i dm ds1 hsub1 hlen1 heq
      simp only [dsRemove, if_true, eq_self_iff_true, Option.some.injEq,
        Prod.mk.injEq] at heq
      obtain ⟨rfl, heq2⟩ := heq
      obtain rfl : ds1 = [] := (congrArg Subtype.val heq2).symm
      rw [hinner]
  simp only [Verifier.verify, verify_with_sig, houter]


/-- Witness for C5 at a concrete input: a macaroon that verifies with an
empty bag fails with `DischargeNotUsed` once an unconsumable discharge is
added. -/
theorem claim_C5_discharge_not_used_witness :
    (Verifier.mk [] []).verify (fun _ _ => [9])
      (fun _ _ => .error (.CryptoError [])) ⟨[1], none, [9], []⟩ [3]
      ([] ++ [⟨[2], none, [9], []⟩]) = .error .DischargeNotUsed :=
  (claim_C5_discharge_not_used (fun _ _ => [9])
    (fun _ _ => .error (.CryptoError [])) (Verifier.mk [] [])
    ⟨[1], none, [9], []⟩ [3] []
    (fun s v e h => by injection h with h1; subst h1; simp)).2
    ⟨[2], none, [9], []⟩
    (by simp [Verifier.verify, verify_with_sig, verifyCaveats,
      buildDischargeSet])
    (by simp [buildDischargeSet, dsKeys])

/-- Witness for C4 at a concrete input: a single discharge naming its own
third-party caveat id. -/
theorem claim_C4_cycle_terminates_witness :
    (Verifier.mk [] []).verify (fun _ _ => [1]) (fun _ _ => .ok [2])
      ⟨[5], none, [7], [.ThirdParty [4] [6] [8]]⟩ [3]
      [⟨[4], none, [9], [.ThirdParty [4] [10] [11]]⟩] =
      .error (.CaveatNotSatisfied noDischargeMsg) :=
  (claim_C4_cycle_terminates (fun _ _ => [1]) (fun _ _ => .ok [2])
    (Verifier.mk [] []) [3]
    ⟨[5], none, [7], [.ThirdParty [4] [6] [8]]⟩
    ⟨[4], none, [9], [.ThirdParty [4] [10] [11]]⟩
    [4] [6] [10] [8] [11] [2] [2] rfl rfl rfl rfl rfl).2.2.2



/-! ## Round trips (claim C2) -/


set_option maxRecDepth 10000

/-! ## Round trips (claim C2) -/

/-- `&&& 127` is `% 128`. -/
theorem nat_and_127 (n : Nat) : n &&& 127 = n % 128 := by
  have h := Nat.and_pow_two_sub_one_eq_mod n 7
  simpa using h

/-- A byte below 128 has a clear high bit. -/
theorem nat_and_128_eq_zero (n : Nat) (h : n < 128) : n &&& 128 = 0 :=
  (by decide : ∀ m : Fin 128, m.val &&& 128 = 0) ⟨n, h⟩

/-- A byte in 128..255 has a set high bit. -/
theorem nat_and_128_ne_zero (n : Nat) (h1 : 128 ≤ n) (h2 : n < 256) :
    n &&& 128 ≠ 0 :=
  (by decide : ∀ m : Fin 256, 128 ≤ m.val → m.val &&& 128 ≠ 0) ⟨n, h2⟩ h1

/-- Setting the high bit of a 7-bit value is adding 128. -/
theorem nat_or_128 (a : Nat) (h : a < 128) : a ||| 128 = a + 128 :=
  (by decide : ∀ m : Fin 128, m.val ||| 128 = m.val + 128) ⟨a, h⟩

namespace v2

/-- A size below 128 is a single varint byte. -/
theorem varint_size_lt_128 (n : Nat) (h : n < 128) : varint_size n = [n] := by
  rw [varint_size.eq_def]
  rw [if_neg (by omega)]

/-- A size in 128..255 is two varint bytes. -/
theorem varint_size_le_255 (n : Nat) (h1 : 128 ≤ n) (h2 : n ≤ 255) :
    varint_size n = [n % 128 + 128, 1] := by
  rw [varint_size.eq_def]
  rw [if_pos (by omega)]
  have hd : n / 128 = 1 := by omega
  rw [hd, varint_size_lt_128 1 (by omega)]

/-- `varint_size` of a size up to 255 is parsed back by `get_field_size`,
leaving the rest of the input untouched. -/
theorem get_field_size_varint (n : Nat) (h : n ≤ 255) (data rest : List Nat)
    (hdata : data = varint_size n ++ rest)
    (hlt : rest.length < data.length) :
    get_field_size data = .ok (n, ⟨rest, hlt⟩) := by
  by_cases h128 : n < 128
  · rw [varint_size_lt_128 n h128] at hdata
    subst hdata
    simp only [List.cons_append, List.nil_append, get_field_size,
      get_field_size_go, get_byte]
    rw [if_neg (by simp [nat_and_128_eq_zero n h128])]
    simp [u8shl, Nat.shiftLeft_zero, Nat.mod_eq_of_lt (show n < 256 by omega)]
  · rw [varint_size_le_255 n (by omega) h] at hdata
    subst hdata
    simp only [List.cons_append, List.nil_append, get_field_size,
      get_field_size_go, get_byte]
    rw [if_pos (nat_and_128_ne_zero _ (by omega) (by omega))]
    rw [if_neg (by simp [nat_and_128_eq_zero 1 (by omega)])]
    have ha : (n % 128 + 128) &&& 127 = n % 128 := by
      rw [nat_and_127]
      omega
    have hb : u8shl (n % 128) 0 = n % 128 := by
      simp [u8shl, Nat.shiftLeft_zero,
        Nat.mod_eq_of_lt (show n % 128 < 256 by omega)]
    have hc : u8shl 1 7 = 128 := by decide
    simp only [ha, hb, hc, Nat.zero_or]
    rw [nat_or_128 _ (by omega)]
    have hn : n % 128 + 128 = n := by omega
    simp [hn]

/-- A field value of up to 255 bytes round-trips through `get_field`. -/
theorem get_field_varint (v : ByteString) (h : v.length ≤ 255)
    (data rest : List Nat)
    (hdata : data = varint_size v.length ++ (v ++ rest))
    (hlt : rest.length < data.length) :
    get_field data = .ok (v, ⟨rest, hlt⟩) := by
  have hne : varint_size v.length ≠ [] := by
    by_cases h128 : v.length < 128
    · rw [varint_size_lt_128 _ h128]; simp
    · rw [varint_size_le_255 _ (by omega) h]; simp
  have hpos := List.length_pos.mpr hne
  have hlt2 : (v ++ rest).length < data.length := by
    rw [hdata]
    simp only [List.length_append]
    omega
  have hs := get_field_size_varint v.length h data (v ++ rest) hdata hlt2
  simp only [get_field, hs]
  rw [if_neg (by simp)]
  simp [List.take_left, List.drop_left]

theorem varint_size_ne_nil (n : Nat) : varint_size n ≠ [] := by
  rw [varint_size.eq_def]
  split <;> simp

theorem caveatLoop_stream (caveats : List Caveat) (tail : List Nat)
    (hwf : ∀ c ∈ caveats, caveatWf c = true) :
    ∀ (builder : MacaroonBuilder) (t : Nat) (d : List Nat),
      (caveats.map caveatBytes).flatten ++ EOS :: tail = t :: d →
      caveatLoop t d builder =
        .ok ({ builder with caveats := builder.caveats ++ caveats }, tail) := by
  induction caveats with
  | nil =>
    intro builder t d heq
    simp only [List.map_nil, List.flatten_nil, List.nil_append] at heq
    injection heq with h1 h2
    subst h1
    subst h2
    rw [caveatLoop.eq_def]
    simp
  | cons c cs ih =>
    intro builder t d heq
    have hwfc := hwf c (List.mem_cons_self _ _)
    have hwfcs : ∀ x ∈ cs, caveatWf x = true :=
      fun x hx => hwf x (List.mem_cons_of_mem _ hx)
    cases hx : (cs.map caveatBytes).flatten ++ EOS :: tail with
    | nil => simp at hx
    | cons t' d' =>
    simp only [EOS] at hx
    cases c with
    | FirstParty p =>
      have hp : p.length ≤ 255 := by simpa [caveatWf] using hwfc
      simp only [List.map_cons, List.flatten_cons, caveatBytes, serialize_field,
        IDENTIFIER, EOS, List.append_assoc, List.cons_append,
        List.singleton_append, List.nil_append, hx] at heq
      injection heq with h1 h2
      subst h1
      subst h2
      rw [caveatLoop.eq_def]
      have hlt1 : ((0:Nat) :: t' :: d').length <
          (varint_size p.length ++ (p ++ 0 :: t' :: d')).length := by
        have hvne := List.length_pos.mpr (varint_size_ne_nil p.length)
        simp only [List.length_append, List.length_cons]
        omega
      have hgf := get_field_varint p hp
        (varint_size p.length ++ (p ++ 0 :: t' :: d'))
        ((0:Nat) :: t' :: d') rfl hlt1
      rw [if_neg (by decide : ¬((2:Nat) = EOS))]
      split
      · rename_i e heq
        simp [hgf, LOCATION, IDENTIFIER] at heq
      · rename_i cb rest1 h1 heq
        simp [hgf, LOCATION, IDENTIFIER] at heq
        obtain ⟨rfl, rfl⟩ := heq
        split
        · rename_i e heq2
          simp [CaveatBuilder.has_location, CaveatBuilder.new,
            CaveatBuilder.add_id] at heq2
        · rename_i cb1 rest4 h4 heq2
          simp [CaveatBuilder.has_location, CaveatBuilder.new,
            CaveatBuilder.add_id] at heq2
          obtain ⟨rfl, rfl⟩ := heq2
          simp only [get_byte, VID, EOS, CaveatBuilder.build,
            CaveatBuilder.new, CaveatBuilder.add_id]
          simp only [reduceIte]
          rw [ih hwfcs _ t' d' hx]
          simp [MacaroonBuilder.add_caveat, List.append_assoc]
    | ThirdParty id3 vid loc =>
      have hcw : ((id3.length ≤ 255 ∧ vid.length ≤ 255) ∧ loc.length ≤ 255) ∧
          utf8Valid loc = true := by simpa [caveatWf] using hwfc
      obtain ⟨⟨⟨hid, hvid⟩, hloc⟩, hutf⟩ := hcw
      simp only [List.map_cons, List.flatten_cons, caveatBytes, serialize_field,
        LOCATION, IDENTIFIER, VID, EOS, List.append_assoc, List.cons_append,
        List.singleton_append, List.nil_append, hx] at heq
      injection heq with h1 h2
      subst h1
      subst h2
      rw [caveatLoop.eq_def]
      have hv1 := List.length_pos.mpr (varint_size_ne_nil loc.length)
      have hv2 := List.length_pos.mpr (varint_size_ne_nil id3.length)
      have hv3 := List.length_pos.mpr (varint_size_ne_nil vid.length)
      have hgf3 := get_field_varint vid hvid
        (varint_size vid.length ++ (vid ++ 0 :: t' :: d'))
        ((0:Nat) :: t' :: d') rfl
        (by simp only [List.length_append, List.length_cons]; omega)
      have hgf2 := get_field_varint id3 hid
        (varint_size id3.length ++
          (id3 ++ 4 :: (varint_size vid.length ++ (vid ++ 0 :: t' :: d'))))
        ((4:Nat) :: (varint_size vid.length ++ (vid ++ 0 :: t' :: d'))) rfl
        (by simp only [List.length_append, List.length_cons]; omega)
      have hgf1 := get_field_varint loc hloc
        (varint_size loc.length ++
          (loc ++ 2 :: (varint_size id3.length ++
            (id3 ++ 4 :: (varint_size vid.length ++ (vid ++ 0 :: t' :: d'))))))
        ((2:Nat) :: (varint_size id3.length ++
          (id3 ++ 4 :: (varint_size vid.length ++ (vid ++ 0 :: t' :: d'))))) rfl
        (by simp only [List.length_append, List.length_cons]; omega)
      rw [if_neg (by decide : ¬((1:Nat) = EOS))]
      split
      · rename_i e heq
        simp [hgf1, LOCATION, rustFromUtf8, hutf] at heq
      · rename_i cb rest1 h1 heq
        simp [hgf1, LOCATION, rustFromUtf8, hutf] at heq
        obtain ⟨rfl, rfl⟩ := heq
        split
        · rename_i e heq2
          simp [CaveatBuilder.has_location, CaveatBuilder.new,
            CaveatBuilder.add_location, get_byte, IDENTIFIER, hgf2] at heq2
        · rename_i cb1 rest4 h4 heq2
          simp [CaveatBuilder.has_location, CaveatBuilder.new,
            CaveatBuilder.add_location, CaveatBuilder.add_id, get_byte,
            IDENTIFIER, hgf2] at heq2
          obtain ⟨rfl, rfl⟩ := heq2
          simp only [get_byte, VID, EOS, hgf3, CaveatBuilder.build,
            CaveatBuilder.new, CaveatBuilder.add_id, CaveatBuilder.add_location,
            CaveatBuilder.add_verifier_id, get_eos]
          simp only [reduceIte]
          rw [ih hwfcs _ t' d' hx]
          simp [MacaroonBuilder.add_caveat, List.append_assoc]

end v2


namespace v2

theorem get_field_varint_nil (v : ByteString) (h : v.length ≤ 255)
    (data : List Nat) (hdata : data = varint_size v.length ++ v)
    (hlt : ([] : List Nat).length < data.length) :
    get_field data = .ok (v, ⟨[], hlt⟩) :=
  get_field_varint v h data [] (by rw [hdata, List.append_nil]) hlt

/-- V2 round trip at the serializer level: a well-formed macaroon
deserializes from its own V2 byte stream. -/
theorem deserialize_serialize_v2 (rnd : ByteString) (m : Macaroon)
    (hwf : m.wf255 = true) :
    deserialize rnd (serialize m) = .ok m := by
  obtain ⟨mid, mloc, msig, mcav⟩ := m
  simp only [Macaroon.wf255, Bool.and_eq_true, Bool.not_eq_true',
    List.all_eq_true, decide_eq_true_eq] at hwf
  obtain ⟨⟨⟨⟨hidne, hidle⟩, hlocwf⟩, hsig⟩, hcav⟩ := hwf
  have hvid := List.length_pos.mpr (varint_size_ne_nil mid.length)
  have hvsig := List.length_pos.mpr (varint_size_ne_nil msig.length)
  cases mloc with
  | none =>
    have hsne : msig.isEmpty = false := by
      cases msig
      · simp at hsig
      · rfl
    simp only [serialize, serialize_field, IDENTIFIER, SIGNATURE, EOS,
      List.append_assoc, List.cons_append, List.singleton_append,
      List.nil_append]
    cases hx : (mcav.map caveatBytes).flatten ++
        (0:Nat) :: 6 :: (varint_size msig.length ++ msig) with
    | nil => simp at hx
    | cons t' d' =>
    have hgfI := get_field_varint mid hidle
      (varint_size mid.length ++ (mid ++ 0 :: t' :: d'))
      ((0:Nat) :: t' :: d') rfl
      (by simp only [List.length_append, List.length_cons]; omega)
    have hne' : msig ≠ [] := by
      intro h
      rw [h] at hsig
      simp at hsig
    have hgfS := get_field_varint_nil msig (by omega)
      (varint_size (32:Nat) ++ msig) (by rw [hsig])
      (by
        rw [varint_size_lt_128 32 (by omega)]
        simp)
    have hcl := caveatLoop_stream mcav
      (6 :: (varint_size msig.length ++ msig)) hcav
      { identifier := mid, location := none, signature := rnd, caveats := [] }
      t' d' hx
    simp [deserialize, get_byte, hx, hgfI, hgfS, hcl, MacaroonBuilder.new,
      MacaroonBuilder.set_identifier, MacaroonBuilder.has_location,
      MacaroonBuilder.set_signature, MacaroonBuilder.build, get_eos,
      LOCATION, IDENTIFIER, SIGNATURE, EOS, hsig, hsne, hidne, hne']
  | some loc =>
    have hlw : loc.length ≤ 255 ∧ utf8Valid loc = true := by
      simpa [Bool.and_eq_true, decide_eq_true_eq] using hlocwf
    obtain ⟨hlocle, hlocutf⟩ := hlw
    have hvloc := List.length_pos.mpr (varint_size_ne_nil loc.length)
    have hsne : msig.isEmpty = false := by
      cases msig
      · simp at hsig
      · rfl
    have hne' : msig ≠ [] := by
      intro h
      rw [h] at hsig
      simp at hsig
    simp only [serialize, serialize_field, LOCATION, IDENTIFIER, SIGNATURE, EOS,
      List.append_assoc, List.cons_append, List.singleton_append,
      List.nil_append]
    cases hx : (mcav.map caveatBytes).flatten ++
        (0:Nat) :: 6 :: (varint_size msig.length ++ msig) with
    | nil => simp at hx
    | cons t' d' =>
    have hgfI := get_field_varint mid hidle
      (varint_size mid.length ++ (mid ++ 0 :: t' :: d'))
      ((0:Nat) :: t' :: d') rfl
      (by simp only [List.length_append, List.length_cons]; omega)
    have hgfL := get_field_varint loc hlocle
      (varint_size loc.length ++
        (loc ++ 2 :: (varint_size mid.length ++ (mid ++ 0 :: t' :: d'))))
      ((2:Nat) :: (varint_size mid.length ++ (mid ++ 0 :: t' :: d'))) rfl
      (by simp only [List.length_append, List.length_cons]; omega)
    have hgfS := get_field_varint_nil msig (by omega)
      (varint_size (32:Nat) ++ msig) (by rw [hsig])
      (by
        rw [varint_size_lt_128 32 (by omega)]
        simp)
    have hcl := caveatLoop_stream mcav
      (6 :: (varint_size msig.length ++ msig)) hcav
      { identifier := mid, location := some loc, signature := rnd, caveats := [] }
      t' d' hx
    simp [deserialize, get_byte, hx, hgfI, hgfL, hgfS, hcl, MacaroonBuilder.new,
      MacaroonBuilder.set_identifier, MacaroonBuilder.set_location,
      MacaroonBuilder.has_location, MacaroonBuilder.set_signature,
      MacaroonBuilder.build, get_eos, rustFromUtf8, hlocutf,
      LOCATION, IDENTIFIER, SIGNATURE, EOS, hsig, hsne, hidne, hne']

end v2

namespace v2json

/-- The caveat loop of `from_json` exactly reverses `caveatToJson`. -/
theorem processJsonCaveats_map (b64dUrl : ByteString → Except MacaroonError ByteString)
    (caveats : List Caveat) (builder : MacaroonBuilder) :
    processJsonCaveats b64dUrl (caveats.map caveatToJson) builder =
      .ok { builder with caveats := builder.caveats ++ caveats } := by
  induction caveats generalizing builder with
  | nil => simp [processJsonCaveats]
  | cons c cs ih =>
    cases c with
    | FirstParty p =>
      simp [processJsonCaveats, caveatToJson, CaveatBuilder.new,
        CaveatBuilder.add_id, CaveatBuilder.build, ih,
        MacaroonBuilder.add_caveat, List.append_assoc]
    | ThirdParty id3 vid loc =>
      simp [processJsonCaveats, caveatToJson, CaveatBuilder.new,
        CaveatBuilder.add_id, CaveatBuilder.add_location,
        CaveatBuilder.add_verifier_id, CaveatBuilder.build, ih,
        MacaroonBuilder.add_caveat, List.append_assoc]

/-- V2J round trip at the struct level: `from_json` inverts `from_macaroon`
whenever the base64 layer decodes what it encoded. -/
theorem from_json_from_macaroon (b64eUrl : ByteString → ByteString)
    (b64dUrl : ByteString → Except MacaroonError ByteString)
    (rnd : ByteString) (m : Macaroon)
    (hdec : b64dUrl (b64eUrl m.signature) = .ok m.signature)
    (hid : m.identifier.isEmpty = false) (hsig : m.signature.length = 32) :
    from_json b64dUrl rnd (from_macaroon b64eUrl m) = .ok m := by
  obtain ⟨mid, mloc, msig, mcav⟩ := m
  have hne' : msig ≠ [] := by
    intro h
    rw [h] at hsig
    simp at hsig
  cases mloc with
  | none =>
    simp [from_json, from_macaroon, hdec, hsig, hid, hne',
      processJsonCaveats_map, MacaroonBuilder.new,
      MacaroonBuilder.set_identifier, MacaroonBuilder.set_location,
      MacaroonBuilder.set_signature, MacaroonBuilder.build]
  | some loc =>
    simp [from_json, from_macaroon, hdec, hsig, hid, hne',
      processJsonCaveats_map, MacaroonBuilder.new,
      MacaroonBuilder.set_identifier, MacaroonBuilder.set_location,
      MacaroonBuilder.set_signature, MacaroonBuilder.build]

end v2json

namespace v1

set_option maxRecDepth 4000

/-- `hexDigit?` inverts `to_hex_char` on nibbles. -/
theorem hexDigit?_to_hex_char (v : Nat) (h : v < 16) :
    hexDigit? (to_hex_char v) = some v :=
  (by decide : ∀ m : Fin 16, hexDigit? (to_hex_char m.val) = some m.val) ⟨v, h⟩

/-- `parseHex4` inverts `packet_header` for sizes that fit in four hex
digits. -/
theorem parseHex4_packet_header (s : Nat) (h : s < 65536) :
    parseHex4 (packet_header s) = some s := by
  simp only [packet_header, parseHex4,
    hexDigit?_to_hex_char _ (Nat.mod_lt _ (by omega))]
  simp only [Nat.shiftRight_eq_div_pow]
  norm_num
  omega

/-- The first space in `tag ++ 32 :: value` sits right after the tag when
the tag has no space. -/
theorem findIdx_space (tag : ByteString) (h : ∀ b ∈ tag, b ≠ 32) :
    ∀ (value : ByteString) (i : Nat),
      List.findIdx? (fun b => b == 32) (tag ++ 32 :: value) i =
        some (i + tag.length) := by
  induction tag with
  | nil =>
    intro value i
    simp [List.findIdx?]
  | cons a t ih =>
    intro value i
    have ha : (a == 32) = false := by
      simp [h a (List.mem_cons_self _ _)]
    have ht : ∀ b ∈ t, b ≠ 32 := fun b hb => h b (List.mem_cons_of_mem _ hb)
    simp only [List.cons_append, List.findIdx?, ha, List.append_eq,
      Bool.false_eq_true, if_false]
    rw [ih ht value (i + 1)]
    congr 1
    simp [List.length_cons]
    omega

/-- Parsing one serialized packet off the front of the stream appends one
parsed packet and continues with the rest. -/
theorem deserialize_as_packets_step (tag value : ByteString) (rest : List Nat)
    (acc : List Packet)
    (h2 : ∀ b ∈ tag, b ≠ 32) (h3 : utf8Valid tag = true)
    (h4 : 4 + 2 + tag.length + value.length ≤ 65535) :
    deserialize_as_packets (serialize_as_packet tag value ++ rest) acc =
      deserialize_as_packets rest (acc ++ [⟨tag, value⟩]) := by
  have hfull : serialize_as_packet tag value =
      packet_header (4 + 2 + tag.length + value.length) ++
        (tag ++ 32 :: (value ++ [10])) := by
    simp [serialize_as_packet, List.append_assoc]
  have hhlen : (packet_header (4 + 2 + tag.length + value.length)).length = 4 := by
    simp [packet_header]
  have hfulllen : (serialize_as_packet tag value).length =
      4 + 2 + tag.length + value.length := by
    rw [hfull]
    simp [packet_header]
    omega
  have hne : (serialize_as_packet tag value ++ rest).isEmpty = false := by
    rw [hfull, packet_header]
    simp
  have hlen : (serialize_as_packet tag value ++ rest).length =
      4 + 2 + tag.length + value.length + rest.length := by
    rw [List.length_append, hfulllen]
  have htake4 : (serialize_as_packet tag value ++ rest).take 4 =
      packet_header (4 + 2 + tag.length + value.length) := by
    rw [hfull, List.append_assoc]
    have hx := List.take_left (packet_header (4 + 2 + tag.length + value.length))
      ((tag ++ 32 :: (value ++ [10])) ++ rest)
    rw [hhlen] at hx
    exact hx
  have hhex : parseHex4 ((serialize_as_packet tag value ++ rest).take 4) =
      some (4 + 2 + tag.length + value.length) := by
    rw [htake4]
    exact parseHex4_packet_header _ (by omega)
  have htakesize : (serialize_as_packet tag value ++ rest).take
      (4 + 2 + tag.length + value.length) = serialize_as_packet tag value := by
    rw [← hfulllen, List.take_left]
  have hdropsize : (serialize_as_packet tag value ++ rest).drop
      (4 + 2 + tag.length + value.length) = rest := by
    rw [← hfulllen, List.drop_left]
  have hpd : (serialize_as_packet tag value).drop 4 =
      tag ++ 32 :: (value ++ [10]) := by
    rw [hfull]
    have hx := List.drop_left (packet_header (4 + 2 + tag.length + value.length))
      (tag ++ 32 :: (value ++ [10]))
    rw [hhlen] at hx
    exact hx
  have hfind : (tag ++ 32 :: (value ++ [10])).findIdx? (fun b => b == 32) =
      some tag.length := by
    have := findIdx_space tag h2 (value ++ [10]) 0
    simpa using this
  have hkey : (tag ++ 32 :: (value ++ [10])).take tag.length = tag :=
    List.take_left tag _
  have hval : (tag ++ 32 :: (value ++ [10])).drop tag.length =
      32 :: (value ++ [10]) :=
    List.drop_left tag _
  have hutf : rustFromUtf8 tag = .ok tag := by
    simp [rustFromUtf8, h3]
  rw [deserialize_as_packets.eq_def]
  simp only [hne, hhex, hlen, htakesize, hdropsize, hpd, hfind, hkey, hval,
    hutf, Bool.false_eq_true]
  rw [dif_neg (fun h => h), if_neg (by omega), if_neg (by omega),
    dif_neg (by omega), if_neg (by simp)]
  simp [List.dropLast_concat]

/-- A stream of serialized packets parses back to the packet list. -/
theorem deserialize_as_packets_stream (l : List Packet)
    (h : ∀ p ∈ l, packetWf p) :
    ∀ acc : List Packet,
      deserialize_as_packets
        ((l.map (fun p => serialize_as_packet p.key p.value)).flatten) acc =
      .ok (acc ++ l) := by
  induction l with
  | nil =>
    intro acc
    rw [deserialize_as_packets.eq_def]
    simp
  | cons p ps ih =>
    intro acc
    obtain ⟨h2, h3, h4⟩ := h p (List.mem_cons_self _ _)
    simp only [List.map_cons, List.flatten_cons, List.append_assoc]
    rw [deserialize_as_packets_step p.key p.value _ acc h2 h3 h4]
    rw [ih (fun q hq => h q (List.mem_cons_of_mem _ hq))]
    simp

/-- `serialize_binary` is the packet-wise rendering of `packetList`. -/
theorem serialize_binary_eq (m : Macaroon) :
    serialize_binary m =
      ((packetList m).map (fun p => serialize_as_packet p.key p.value)).flatten := by
  obtain ⟨mid, mloc, msig, mcav⟩ := m
  have hcav : (mcav.map caveatPackets).flatten =
      (((mcav.map caveatPacketList).flatten).map
        (fun p => serialize_as_packet p.key p.value)).flatten := by
    induction mcav with
    | nil => simp
    | cons c cs ihc =>
      cases c <;>
        simp [caveatPackets, caveatPacketList, ihc, List.append_assoc]
  cases mloc <;>
    simp [serialize_binary, packetList, hcav, List.append_assoc]

/-- The packet loop over a caveat's packets with a pending caveat in the
caveat builder: each `cid` flushes the pending caveat, and the final
`signature` packet flushes the last one. -/
theorem processPackets_go (caveats : List Caveat)
    (hwf : ∀ c ∈ caveats, caveatWf c = true) :
    ∀ (builder : MacaroonBuilder) (c0 : Caveat) (cb : CaveatBuilder),
      cb.build = .ok c0 → cb.has_id = true →
      ∀ sig : ByteString, sig.length = 32 →
      processPackets ((caveats.map caveatPacketList).flatten ++
          [⟨SIGNATURE, sig⟩]) builder cb =
        .ok ({ builder with
                 signature := sig,
                 caveats := builder.caveats ++ c0 :: caveats },
             CaveatBuilder.new) := by
  induction caveats with
  | nil =>
    intro builder c0 cb hbuild hid sig hsig
    simp only [List.map_nil, List.flatten_nil, List.nil_append]
    simp [processPackets, show (SIGNATURE = LOCATION) = False by decide,
      show (SIGNATURE = IDENTIFIER) = False by decide, hid, hbuild, hsig,
      MacaroonBuilder.add_caveat, MacaroonBuilder.set_signature]
  | cons c cs ih =>
    intro builder c0 cb hbuild hid sig hsig
    have hwfc := hwf c (List.mem_cons_self _ _)
    have hwfcs : ∀ x ∈ cs, caveatWf x = true :=
      fun x hx => hwf x (List.mem_cons_of_mem _ hx)
    cases c with
    | FirstParty p =>
      simp only [List.map_cons, List.flatten_cons, caveatPacketList,
        List.append_assoc, List.cons_append, List.singleton_append,
        List.nil_append]
      simp only [processPackets, show (CID = LOCATION) = False by decide,
        show (CID = IDENTIFIER) = False by decide,
        show (CID = SIGNATURE) = False by decide, reduceIte, hid, hbuild]
      rw [ih hwfcs (builder.add_caveat c0) (.FirstParty p)
        (CaveatBuilder.new.add_id p) rfl rfl sig hsig]
      simp [MacaroonBuilder.add_caveat, List.append_assoc]
    | ThirdParty id3 vid loc =>
      have hutf : utf8Valid loc = true := by
        have := hwfc
        simp [caveatWf] at this
        exact this.2
      simp only [List.map_cons, List.flatten_cons, caveatPacketList,
        List.append_assoc, List.cons_append, List.singleton_append,
        List.nil_append]
      simp only [processPackets, show (CID = LOCATION) = False by decide,
        show (CID = IDENTIFIER) = False by decide,
        show (CID = SIGNATURE) = False by decide,
        show (VID = LOCATION) = False by decide,
        show (VID = IDENTIFIER) = False by decide,
        show (VID = SIGNATURE) = False by decide,
        show (VID = CID) = False by decide,
        show (CL = LOCATION) = False by decide,
        show (CL = IDENTIFIER) = False by decide,
        show (CL = SIGNATURE) = False by decide,
        show (CL = CID) = False by decide,
        show (CL = VID) = False by decide, reduceIte, hid, hbuild,
        (show cb.id.isSome = true from hid),
        CaveatBuilder.has_id, CaveatBuilder.new, CaveatBuilder.add_id,
        CaveatBuilder.add_verifier_id, rustFromUtf8, hutf,
        CaveatBuilder.add_location]
      rw [ih hwfcs (builder.add_caveat c0) (.ThirdParty id3 vid loc)
        ⟨some id3, some vid, some loc⟩ rfl rfl sig hsig]
      simp [MacaroonBuilder.add_caveat, List.append_assoc, CaveatBuilder.new]

/-- The packet loop over the caveat section starting with an empty caveat
builder. -/
theorem processPackets_caveats (caveats : List Caveat)
    (hwf : ∀ c ∈ caveats, caveatWf c = true) :
    ∀ (builder : MacaroonBuilder) (sig : ByteString), sig.length = 32 →
      processPackets ((caveats.map caveatPacketList).flatten ++
          [⟨SIGNATURE, sig⟩]) builder CaveatBuilder.new =
        .ok ({ builder with
                 signature := sig,
                 caveats := builder.caveats ++ caveats },
             CaveatBuilder.new) := by
  cases caveats with
  | nil =>
    intro builder sig hsig
    simp [processPackets, show (SIGNATURE = LOCATION) = False by decide,
      show (SIGNATURE = IDENTIFIER) = False by decide,
      CaveatBuilder.has_id, CaveatBuilder.new, hsig,
      MacaroonBuilder.set_signature]
  | cons c cs =>
    intro builder sig hsig
    have hwfcs : ∀ x ∈ cs, caveatWf x = true :=
      fun x hx => hwf x (List.mem_cons_of_mem _ hx)
    cases c with
    | FirstParty p =>
      simp only [List.map_cons, List.flatten_cons, caveatPacketList,
        List.append_assoc, List.cons_append, List.singleton_append,
        List.nil_append]
      simp only [processPackets, show (CID = LOCATION) = False by decide,
        show (CID = IDENTIFIER) = False by decide,
        show (CID = SIGNATURE) = False by decide, reduceIte,
        CaveatBuilder.has_id, CaveatBuilder.new, CaveatBuilder.add_id,
        Option.isSome_none, Bool.false_eq_true, if_false]
      rw [processPackets_go cs hwfcs builder (.FirstParty p)
        ⟨some p, none, none⟩ rfl rfl sig hsig]
      rfl
    | ThirdParty id3 vid loc =>
      have hutf : utf8Valid loc = true := by
        have hh := hwf _ (List.mem_cons_self _ _)
        simp [caveatWf] at hh
        exact hh.2
      simp only [List.map_cons, List.flatten_cons, caveatPacketList,
        List.append_assoc, List.cons_append, List.singleton_append,
        List.nil_append]
      simp only [processPackets, show (CID = LOCATION) = False by decide,
        show (CID = IDENTIFIER) = False by decide,
        show (CID = SIGNATURE) = False by decide,
        show (VID = LOCATION) = False by decide,
        show (VID = IDENTIFIER) = False by decide,
        show (VID = SIGNATURE) = False by decide,
        show (VID = CID) = False by decide,
        show (CL = LOCATION) = False by decide,
        show (CL = IDENTIFIER) = False by decide,
        show (CL = SIGNATURE) = False by decide,
        show (CL = CID) = False by decide,
        show (CL = VID) = False by decide, reduceIte,
        CaveatBuilder.has_id, CaveatBuilder.new, CaveatBuilder.add_id,
        CaveatBuilder.add_verifier_id, rustFromUtf8, hutf,
        CaveatBuilder.add_location, Option.isSome_none, Bool.false_eq_true,
        if_false]
      rw [processPackets_go cs hwfcs builder (.ThirdParty id3 vid loc)
        ⟨some id3, some vid, some loc⟩ rfl rfl sig hsig]
      rfl

/-- V1 round trip at the serializer level: a well-formed macaroon
deserializes from its own V1 packet stream. -/
theorem deserialize_serialize_v1 (rnd : ByteString) (m : Macaroon)
    (hwf : m.wf255 = true) :
    deserialize rnd (serialize_binary m) = .ok m := by
  obtain ⟨mid, mloc, msig, mcav⟩ := m
  simp only [Macaroon.wf255, Bool.and_eq_true, Bool.not_eq_true',
    List.all_eq_true, decide_eq_true_eq] at hwf
  obtain ⟨⟨⟨⟨hidne, hidle⟩, hlocwf⟩, hsig⟩, hcav⟩ := hwf
  have hne' : msig ≠ [] := by
    intro h
    rw [h] at hsig
    simp at hsig
  have hsne : msig.isEmpty = false := by
    cases msig
    · simp at hsig
    · rfl
  have hpl : ∀ p ∈ packetList ⟨mid, mloc, msig, mcav⟩, packetWf p := by
    intro p hp
    simp only [packetList, List.mem_append, List.mem_singleton,
      List.mem_flatten, List.mem_map] at hp
    rcases hp with ⟨⟨hp | hp⟩ | ⟨l, ⟨c, hc, rfl⟩, hp⟩⟩ | hp
    · cases mloc with
      | none => simp at hp
      | some loc =>
        simp at hp
        subst hp
        simp only [packetWf]
        refine ⟨by decide, by decide, ?_⟩
        have : loc.length ≤ 255 := by
          simp [Bool.and_eq_true, decide_eq_true_eq] at hlocwf
          exact hlocwf.1
        simp [LOCATION, str2b]
        omega
    · subst hp
      simp only [packetWf]
      refine ⟨by decide, by decide, ?_⟩
      simp [IDENTIFIER, str2b]
      omega
    · have hcwf := hcav c hc
      cases c with
      | FirstParty pr =>
        simp only [caveatPacketList, List.mem_singleton] at hp
        subst hp
        simp only [packetWf]
        refine ⟨by decide, by decide, ?_⟩
        simp [caveatWf] at hcwf
        simp [CID, str2b]
        omega
      | ThirdParty id3 vid loc =>
        have hcwf' : ((id3.length ≤ 255 ∧ vid.length ≤ 255) ∧
            loc.length ≤ 255) ∧ utf8Valid loc = true := by
          simpa [caveatWf] using hcwf
        simp only [caveatPacketList, List.mem_cons, List.mem_singleton,
          List.not_mem_nil, or_false] at hp
        rcases hp with hp | hp | hp <;> subst hp <;>
          simp only [packetWf] <;> refine ⟨by decide, by decide, ?_⟩
        · simp [CID, str2b]
          omega
        · simp [VID, str2b]
          omega
        · simp [CL, str2b]
          omega
    · subst hp
      simp only [packetWf]
      refine ⟨by decide, by decide, ?_⟩
      simp [SIGNATURE, str2b]
      omega
  have hds := deserialize_as_packets_stream _ hpl []
  simp only [deserialize, serialize_binary_eq, hds]
  cases mloc with
  | none =>
    simp only [packetList, List.append_assoc, List.cons_append,
      List.singleton_append, List.nil_append]
    simp only [processPackets, show (IDENTIFIER = LOCATION) = False by decide,
      reduceIte, MacaroonBuilder.new, MacaroonBuilder.set_identifier]
    rw [processPackets_caveats mcav hcav ⟨mid, none, rnd, []⟩ msig hsig]
    simp [MacaroonBuilder.build, hidne, hsne, hne']
  | some loc =>
    have hlocutf : utf8Valid loc = true := by
      simp [Bool.and_eq_true, decide_eq_true_eq] at hlocwf
      exact hlocwf.2
    simp only [packetList, List.append_assoc, List.cons_append,
      List.singleton_append, List.nil_append]
    simp only [processPackets, show (IDENTIFIER = LOCATION) = False by decide,
      reduceIte, MacaroonBuilder.new, MacaroonBuilder.set_identifier,
      MacaroonBuilder.set_location, rustFromUtf8, hlocutf]
    rw [processPackets_caveats mcav hcav ⟨mid, some loc, rnd, []⟩ msig hsig]
    simp [MacaroonBuilder.build, hidne, hsne, hne']

end v1



/-- `to_hex_char` of a nibble lands in the V1 dispatch class and is never
the V2 version byte. -/
theorem to_hex_char_leading (v : Nat) (h : v < 16) :
    v1LeadingByte (v1.to_hex_char v) = true ∧ v1.to_hex_char v ≠ 2 :=
  (by decide : ∀ m : Fin 16,
    v1LeadingByte (v1.to_hex_char m.val) = true ∧ v1.to_hex_char m.val ≠ 2)
    ⟨v, h⟩

/-- A V1 packet stream starts with a hex digit. -/
theorem v1_serialize_head (m : Macaroon) :
    ∃ b bs, v1.serialize_binary m = b :: bs ∧ v1LeadingByte b = true ∧
      b ≠ 2 := by
  obtain ⟨mid, mloc, msig, mcav⟩ := m
  cases mloc with
  | none =>
    simp only [v1.serialize_binary, v1.serialize_as_packet, v1.packet_header,
      List.cons_append, List.append_assoc, List.nil_append]
    exact ⟨_, _, rfl, to_hex_char_leading _ (Nat.mod_lt _ (by omega))⟩
  | some loc =>
    simp only [v1.serialize_binary, v1.serialize_as_packet, v1.packet_header,
      List.cons_append, List.append_assoc, List.nil_append]
    exact ⟨_, _, rfl, to_hex_char_leading _ (Nat.mod_lt _ (by omega))⟩

/-- `validate` passes every macaroon with a non-empty identifier and
signature. -/
theorem validate_wf255 (m : Macaroon) (hwf : m.wf255 = true) :
    m.validate = .ok m := by
  obtain ⟨mid, mloc, msig, mcav⟩ := m
  simp only [Macaroon.wf255, Bool.and_eq_true, Bool.not_eq_true',
    List.all_eq_true, decide_eq_true_eq] at hwf
  obtain ⟨⟨⟨⟨hidne, hidle⟩, hlocwf⟩, hsig⟩, hcav⟩ := hwf
  have hsne : msig.isEmpty = false := by
    cases msig
    · simp at hsig
    · rfl
  simp [Macaroon.validate, hidne, hsne]

/-- Dispatch of a binary V1 stream: first byte is a hex digit, so the V1
parser runs and succeeds. -/
theorem deserialize_binary_v1 (rnd : ByteString) (m : Macaroon)
    (hwf : m.wf255 = true) :
    Macaroon.deserialize_binary rnd (v1.serialize_binary m) = .ok m := by
  obtain ⟨b0, bs0, hstream, hlead, hne2⟩ := v1_serialize_head m
  rw [hstream]
  simp only [Macaroon.deserialize_binary]
  rw [if_neg hne2, if_pos hlead, ← hstream,
    v1.deserialize_serialize_v1 rnd m hwf]
  exact validate_wf255 m hwf

/-- Dispatch of a binary V2 stream: first byte 2 selects the V2 parser,
which succeeds. -/
theorem deserialize_binary_v2 (rnd : ByteString) (m : Macaroon)
    (hwf : m.wf255 = true) :
    Macaroon.deserialize_binary rnd (v2.serialize m) = .ok m := by
  have h2 : Macaroon.deserialize_binary rnd (v2.serialize m) =
      v2.deserialize rnd (v2.serialize m) >>= Macaroon.validate := rfl
  rw [h2, v2.deserialize_serialize_v2 rnd m hwf]
  exact validate_wf255 m hwf

/-- C2 (amended): for every macaroon whose variable-length fields are at
most 255 bytes (with non-empty identifier, 32-byte signature and UTF-8
locations, as every Rust `Macaroon` has by construction) and every format,
deserializing the serialization returns exactly the macaroon, provided the
external layers honour their contracts on the bytes in play: base64
decoding inverts encoding and the encoded text does not start with `{`
(formats V1 and V2), and JSON parsing inverts rendering, the rendered text
starts with `{`, and URL-safe base64 decoding inverts encoding on the
signature (format V2J). -/
theorem claim_C2_roundtrip_amended
    (jsonParse : ByteString → Except MacaroonError v2json.Serialization)
    (jsonRender : v2json.Serialization → ByteString)
    (b64eUrl : ByteString → ByteString)
    (decUrl decStd : ByteString → Except MacaroonError ByteString)
    (rnd : ByteString) (m : Macaroon) (format : Format)
    (hwf : m.wf255 = true)
    (hb64V1 : format = .V1 →
      base64_decode_flexible decUrl decStd (b64eUrl (v1.serialize_binary m)) =
        .ok (v1.serialize_binary m) ∧
      (b64eUrl (v1.serialize_binary m)).head? ≠ some 123)
    (hb64V2 : format = .V2 →
      base64_decode_flexible decUrl decStd (b64eUrl (v2.serialize m)) =
        .ok (v2.serialize m) ∧
      (b64eUrl (v2.serialize m)).head? ≠ some 123)
    (hjson : format = .V2JSON →
      jsonParse (jsonRender (v2json.from_macaroon b64eUrl m)) =
        .ok (v2json.from_macaroon b64eUrl m) ∧
      (jsonRender (v2json.from_macaroon b64eUrl m)).head? = some 123 ∧
      decUrl (b64eUrl m.signature) = .ok m.signature) :
    Macaroon.deserialize jsonParse decUrl decStd rnd
      (Macaroon.serialize b64eUrl jsonRender m format) = .ok m := by
  have hwf' := hwf
  simp only [Macaroon.wf255, Bool.and_eq_true, Bool.not_eq_true',
    List.all_eq_true, decide_eq_true_eq] at hwf'
  have hid : m.identifier.isEmpty = false := hwf'.1.1.1.1
  have hsig : m.signature.length = 32 := hwf'.1.2
  cases format with
  | V1 =>
    obtain ⟨hdec, hhead⟩ := hb64V1 rfl
    simp only [Macaroon.serialize]
    cases htok : b64eUrl (v1.serialize_binary m) with
    | nil =>
      rw [htok] at hdec
      simp [base64_decode_flexible] at hdec
    | cons tb tbs =>
      rw [htok] at hdec hhead
      have htb : ¬(tb = 123) := by
        intro h
        subst h
        simp at hhead
      simp only [Macaroon.deserialize]
      rw [if_neg htb]
      simp only [hdec]
      rw [deserialize_binary_v1 rnd m hwf]
      exact validate_wf255 m hwf
  | V2 =>
    obtain ⟨hdec, hhead⟩ := hb64V2 rfl
    simp only [Macaroon.serialize]
    cases htok : b64eUrl (v2.serialize m) with
    | nil =>
      rw [htok] at hdec
      simp [base64_decode_flexible] at hdec
    | cons tb tbs =>
      rw [htok] at hdec hhead
      have htb : ¬(tb = 123) := by
        intro h
        subst h
        simp at hhead
      simp only [Macaroon.deserialize]
      rw [if_neg htb]
      simp only [hdec]
      rw [deserialize_binary_v2 rnd m hwf]
      exact validate_wf255 m hwf
  | V2JSON =>
    obtain ⟨hparse, hhead, hdecSig⟩ := hjson rfl
    simp only [Macaroon.serialize, v2json.serialize]
    cases htok : jsonRender (v2json.from_macaroon b64eUrl m) with
    | nil =>
      rw [htok] at hhead
      simp at hhead
    | cons tb tbs =>
      rw [htok] at hparse hhead
      have htb : tb = 123 := by simpa using hhead
      subst htb
      simp only [Macaroon.deserialize]
      simp only [if_true]
      simp only [v2json.deserialize, hparse]
      rw [v2json.from_json_from_macaroon b64eUrl decUrl rnd m hdecSig hid hsig]
      exact validate_wf255 m hwf

/-- Witness for C2 (amended) at a concrete macaroon, format V2, with toy
external base64 (prepend one byte / drop one byte). -/
theorem claim_C2_roundtrip_amended_witness :
    Macaroon.deserialize (fun _ => .error (.DeserializationError []))
      (fun b => .ok (b.drop 1)) (fun b => .ok (b.drop 1)) []
      (Macaroon.serialize (fun b => 65 :: b) (fun _ => [123])
        ⟨[107], none,
         [9, 9, 9, 9, 9, 9, 9, 9, 9, 9, 9, 9, 9, 9, 9, 9,
          9, 9, 9, 9, 9, 9, 9, 9, 9, 9, 9, 9, 9, 9, 9, 9],
         [.FirstParty [99]]⟩ .V2) =
      .ok ⟨[107], none,
        [9, 9, 9, 9, 9, 9, 9, 9, 9, 9, 9, 9, 9, 9, 9, 9,
         9, 9, 9, 9, 9, 9, 9, 9, 9, 9, 9, 9, 9, 9, 9, 9],
        [.FirstParty [99]]⟩ :=
  claim_C2_roundtrip_amended
    (fun _ => .error (.DeserializationError []))
    (fun _ => [123])
    (fun b => 65 :: b)
    (fun b => .ok (b.drop 1)) (fun b => .ok (b.drop 1)) []
    ⟨[107], none,
     [9, 9, 9, 9, 9, 9, 9, 9, 9, 9, 9, 9, 9, 9, 9, 9,
      9, 9, 9, 9, 9, 9, 9, 9, 9, 9, 9, 9, 9, 9, 9, 9],
     [.FirstParty [99]]⟩ .V2
    (by decide)
    (fun h => nomatch h)
    (fun _ => by
      constructor
      · simp [v2.serialize, v2.serialize_field, v2.caveatBytes,
          v2.varint_size, base64_decode_flexible, v2.EOS, v2.LOCATION,
          v2.IDENTIFIER, v2.VID, v2.SIGNATURE]
      · simp)
    (fun h => nomatch h)

set_option maxRecDepth 40000 in
set_option maxHeartbeats 2000000 in
/-- C2 as stated is false: a macaroon whose identifier is 256 bytes long
serializes to a V2 token that fails to deserialize.  `get_field_size`
truncates each varint byte's contribution with a `u8` shift, so the
identifier length 256 (varint bytes 0x80 0x02) is read back as 0, parsing
stalls inside the identifier bytes and errors with "Expected EOS".  The toy
externals prepend/drop one byte, satisfying the base64 contract. -/
theorem claim_C2_counterexample :
    Macaroon.deserialize (fun _ => .error (.DeserializationError []))
      (fun b => .ok (b.drop 1)) (fun b => .ok (b.drop 1)) []
      (Macaroon.serialize (fun b => 65 :: b) (fun _ => [123])
        ⟨48 :: List.replicate 255 48, none, List.replicate 32 0, []⟩ .V2) =
      .error (.DeserializationError (str2b "Expected EOS")) := by
  have hv32 : v2.varint_size (List.replicate 32 0 : ByteString).length = [32] := by
    rw [List.length_replicate]
    exact v2.varint_size_lt_128 32 (by omega)
  have hvar : v2.varint_size (48 :: List.replicate 255 48 : ByteString).length =
      [128, 2] := by
    have h256 : (48 :: List.replicate 255 48 : ByteString).length = 256 := by
      simp
    rw [h256, v2.varint_size.eq_def]
    norm_num
    rw [v2.varint_size.eq_def]
    norm_num
  simp only [Macaroon.serialize, v2.serialize, v2.serialize_field,
    v2.EOS, v2.LOCATION, v2.IDENTIFIER, v2.VID, v2.SIGNATURE, hvar, hv32,
    List.map_nil, List.flatten_nil, List.append_assoc, List.cons_append,
    List.singleton_append, List.nil_append]
  simp only [Macaroon.deserialize, base64_decode_flexible]
  rw [if_neg (by decide)]
  rw [if_neg (by simp)]
  rw [if_neg (by simp [List.mem_append, List.mem_replicate])]
  simp only [List.drop_succ_cons, List.drop_zero]
  simp only [Macaroon.deserialize_binary]
  simp only [if_true]
  simp [v2.deserialize, v2.get_byte, v2.get_field, v2.get_field_size,
    v2.get_field_size_go, v2.u8shl, v2.get_eos, v2.EOS, v2.LOCATION,
    v2.IDENTIFIER, v2.VID, v2.SIGNATURE, MacaroonBuilder.new,
    MacaroonBuilder.set_identifier, MacaroonBuilder.has_location]
  rfl


end Macaroons
